import Mathlib

/-!
# Verification of the spaceweather-timeline extraction pipeline

A shallow embedding of the core pipeline of the `spaceweather-timeline`
repository: the section extractor (`scraper.py`), the LLM reply parsing and
repair pipeline (`llm_processor.py`), the per-date orchestration and tiered
store logic (`data_manager.py`, `db_manager.py`), the range processor and the
forecast projector.

Python dictionaries, lists, strings, numbers, booleans and `None` are embedded
as the inductive type `PyVal`.  Network and file-system collaborators (the
scraper's HTTP fetch, the LLM completion call, the Supabase remote store, the
SQLite rows, the JSON snapshot files) are passed in as explicit oracle values,
mirroring the data they would return; everything the repository computes from
those values is transcribed from the source.  Python exceptions are modelled
with `Except String`, with the error string naming the exception type
(`"KeyError"`, `"TypeError"`, ...) rather than CPython's message text.
Python float literals are carried as their raw token text (no claim inspects
float values).
-/

namespace SW

/-! ## Character-list utilities (Python string primitives) -/

/-- Python whitespace for `str.strip()` / `\s` on ASCII text:
space, tab, newline, carriage return, vertical tab, form feed. -/
def isPyWs (c : Char) : Bool :=
  c == ' ' || c == '\t' || c == '\n' || c == '\r' || c == Char.ofNat 11 || c == Char.ofNat 12

/-- Does `pat` occur at the head of `s`? (`str.startswith`). -/
def startsWithL : List Char → List Char → Bool
  | [], _ => true
  | _ :: _, [] => false
  | p :: ps, c :: cs => p == c && startsWithL ps cs

/-- Does `pat` occur anywhere inside `s`? (Python `pat in s`). -/
def containsSub (pat : List Char) : List Char → Bool
  | [] => startsWithL pat []
  | c :: cs => startsWithL pat (c :: cs) || containsSub pat cs

/-- `str.strip()`: drop leading and trailing whitespace. -/
def stripL (s : List Char) : List Char :=
  ((s.dropWhile isPyWs).reverse.dropWhile isPyWs).reverse

/-- Number of occurrences of the character `c` (`str.count(c)`). -/
def countChar (c : Char) (s : List Char) : Nat :=
  s.countP (· == c)

/-- Python `s.split(sep)` for a non-empty separator: split on non-overlapping
occurrences scanned left to right.  Structural on a fuel argument (every call
site passes the text's length, which bounds the scan) so that concrete inputs
evaluate by `rfl`. -/
def splitOnSubAux (sep : List Char) : Nat → List Char → List (List Char)
  | _, [] => [[]]
  | 0, s => [s] -- unreachable: fuel is at least the text length
  | Nat.succ fuel, c :: cs =>
    if startsWithL sep (c :: cs) && !sep.isEmpty then
      [] :: splitOnSubAux sep fuel ((c :: cs).drop sep.length)
    else
      match splitOnSubAux sep fuel cs with
      | [] => [[c]]
      | p :: ps => (c :: p) :: ps

def splitOnSub (sep s : List Char) : List (List Char) :=
  splitOnSubAux sep s.length s

/-- Python `s.replace(old, new)` (all non-overlapping occurrences, left to
right); `old` is non-empty at every call site.  Fuel-structural like
`splitOnSubAux`. -/
def replaceSubAux (old new : List Char) : Nat → List Char → List Char
  | _, [] => []
  | 0, s => s -- unreachable: fuel is at least the text length
  | Nat.succ fuel, c :: cs =>
    if startsWithL old (c :: cs) && !old.isEmpty then
      new ++ replaceSubAux old new fuel ((c :: cs).drop old.length)
    else
      c :: replaceSubAux old new fuel cs

def replaceSub (old new s : List Char) : List Char :=
  replaceSubAux old new s.length s

/-- ASCII lower-casing (`str.lower()` on the text this repository handles). -/
def lowerL (s : List Char) : List Char :=
  s.map Char.toLower

/-- Python `<` on strings: lexicographic comparison of code points. -/
def ltCharList : List Char → List Char → Bool
  | [], [] => false
  | [], _ :: _ => true
  | _ :: _, [] => false
  | a :: as', b :: bs =>
    if a.val < b.val then true
    else if b.val < a.val then false
    else ltCharList as' bs

/-- Python `s < t` on strings (used by the source to compare `YYYY-MM-DD`
date strings, where it coincides with chronological order). -/
def ltStr (s t : String) : Bool :=
  ltCharList s.toList t.toList

/-! ## Embedded Python values -/

/-- Embedded Python/JSON value: `None`, booleans, integers, float literals (kept
as raw token text), strings, lists, and insertion-ordered dicts. -/
inductive PyVal where
  | none_  : PyVal
  | bool_  : Bool → PyVal
  | int_   : Int → PyVal
  | float_ : String → PyVal
  | str_   : String → PyVal
  | list_  : List PyVal → PyVal
  | dict_  : List (String × PyVal) → PyVal
deriving Repr, Inhabited

namespace PyVal

/-- Association-list lookup for a dict key (`d[k]` / `d.get(k)`). -/
def lookup (k : String) : List (String × PyVal) → Option PyVal
  | [] => Option.none
  | (k', v) :: rest => if k' = k then some v else lookup k rest

mutual
/-- Python `==` on the values this pipeline compares: structural on matching
shapes, with `True == 1` / `False == 0` numeric cross-equality and unordered
dict comparison.  Float literals compare by raw token (never exercised). -/
def pyEq : PyVal → PyVal → Bool
  | .none_, .none_ => true
  | .bool_ a, .bool_ b => a == b
  | .bool_ b, .int_ i => (if b then (1 : Int) else 0) == i
  | .int_ i, .bool_ b => (if b then (1 : Int) else 0) == i
  | .int_ a, .int_ b => a == b
  | .float_ a, .float_ b => a == b
  | .str_ a, .str_ b => a == b
  | .list_ a, .list_ b => pyEqList a b
  | .dict_ a, .dict_ b => a.length == b.length && pyEqDictSub a b
  | _, _ => false

def pyEqList : List PyVal → List PyVal → Bool
  | [], [] => true
  | a :: as', b :: bs => pyEq a b && pyEqList as' bs
  | _, _ => false

def pyEqDictSub : List (String × PyVal) → List (String × PyVal) → Bool
  | [], _ => true
  | (k, v) :: rest, b =>
    (match lookup k b with
     | some w => pyEq v w
     | Option.none => false) && pyEqDictSub rest b
end

/-- Python truthiness (`bool(v)`).  `None`, `False`, `0`, `""`, `[]`, `{}` are
falsy.  A float literal is treated as truthy (no code path in this development
ever tests the truthiness of a float). -/
def truthy : PyVal → Bool
  | .none_ => false
  | .bool_ b => b
  | .int_ i => i != 0
  | .float_ _ => true
  | .str_ s => s ≠ ""
  | .list_ l => !l.isEmpty
  | .dict_ d => !d.isEmpty

/-- Python dict assignment `d[k] = v`: updates in place if the key exists
(keeping its original position), otherwise appends at the end. -/
def setKey (k : String) (v : PyVal) : List (String × PyVal) → List (String × PyVal)
  | [] => [(k, v)]
  | (k', v') :: rest => if k' = k then (k', v) :: rest else (k', v') :: setKey k v rest

/-- `d.get(k, default)` on a dict value; `.error` (AttributeError) when the
receiver is not a dict. -/
def get (v : PyVal) (k : String) (default : PyVal) : Except String PyVal :=
  match v with
  | .dict_ d => .ok ((lookup k d).getD default)
  | _ => .error "AttributeError"

/-- `d.get(k, default)` where the receiver is statically a dict. -/
def dget (d : List (String × PyVal)) (k : String) (default : PyVal) : PyVal :=
  (lookup k d).getD default

/-- `len(v)`: defined for strings, lists and dicts; TypeError otherwise. -/
def pyLen : PyVal → Except String Nat
  | .str_ s => .ok s.length
  | .list_ l => .ok l.length
  | .dict_ d => .ok d.length
  | _ => .error "TypeError"

/-- Python `k in v` membership test for a string key `k`: key membership for
dicts, substring for strings, element (`==`) membership for lists; TypeError
for other receivers. -/
def contains (v : PyVal) (k : String) : Except String Bool :=
  match v with
  | .dict_ d => .ok ((lookup k d).isSome)
  | .str_ s => .ok (containsSub k.toList s.toList)
  | .list_ l => .ok (l.any (fun x => pyEq x (.str_ k)))
  | _ => .error "TypeError"

/-- Python `x in l` membership of an arbitrary value in a list (via `==`). -/
def memList (x : PyVal) (l : List PyVal) : Bool :=
  l.any (fun y => pyEq x y)

end PyVal

/-- The four standard event category keys, in the order the source iterates
over them (`["cme", "sunspot", "flares", "coronal_holes"]`). -/
def categories : List String := ["cme", "sunspot", "flares", "coronal_holes"]

/-- A fresh events mapping holding the four category keys with empty lists. -/
def emptyEvents : PyVal :=
  .dict_ [("cme", .list_ []), ("sunspot", .list_ []),
          ("flares", .list_ []), ("coronal_holes", .list_ [])]

/-- `sum(len(events.get(cat, [])) for cat in [...])` — the composite
"total_events" computation used throughout `data_manager.py`.  Propagates the
AttributeError of `.get` on a non-dict receiver and the TypeError of `len`
on a non-sized value. -/
def totalEvents (events : PyVal) : Except String Nat := do
  let mut total := 0
  for cat in categories do
    let v ← events.get cat (.list_ [])
    let n ← PyVal.pyLen v
    total := total + n
  return total

/-- `v[k]` indexing on a value: KeyError for a missing dict key, TypeError for
a non-dict receiver (string keys only arise in this pipeline). -/
def PyVal.index (v : PyVal) (k : String) : Except String PyVal :=
  match v with
  | .dict_ d =>
    match lookup k d with
    | some x => .ok x
    | Option.none => .error "KeyError"
  | _ => .error "TypeError"

mutual
/-- Python `repr` of an embedded value (used only through `pyStr` inside
f-string interpolation; quote-escaping inside reprs is not reproduced since no
claim evaluates a repr of a quoted string). -/
def pyRepr : PyVal → String
  | .none_ => "None"
  | .bool_ b => if b then "True" else "False"
  | .int_ i => toString i
  | .float_ r => r
  | .str_ s => "'" ++ s ++ "'"
  | .list_ l => "[" ++ String.intercalate ", " (pyReprList l) ++ "]"
  | .dict_ d => "\x7b" ++ String.intercalate ", " (pyReprDict d) ++ "\x7d"

def pyReprList : List PyVal → List String
  | [] => []
  | v :: vs => pyRepr v :: pyReprList vs

def pyReprDict : List (String × PyVal) → List String
  | [] => []
  | (k, v) :: rest => ("'" ++ k ++ "': " ++ pyRepr v) :: pyReprDict rest
end

/-- Python `str(v)` as used by f-string interpolation. -/
def pyStr : PyVal → String
  | .str_ s => s
  | v => pyRepr v

/-! ## Forecast Projector (`data_manager.generate_forecast_data`)

`datetime.now().strftime("%Y-%m-%d")` is passed in as the `today` argument;
dates are the `YYYY-MM-DD` strings the source compares with Python `>`
(lexicographic, which on that format is chronological). -/

/-- The `forecast_event = {...}` dict built by `generate_forecast_data` from a
source event `evd` of the record `dataDict` with predicted arrival `pa`. -/
def forecastEventOf (dataDict evd : List (String × PyVal)) (pa : PyVal) : PyVal :=
  .dict_ [
    ("tone", PyVal.dget evd "tone" (.str_ "Normal")),
    ("date", PyVal.dget dataDict "date" .none_), -- original observation date
    ("predicted_arrival", pa),
    ("detail", .str_ ("<p><strong>Forecast:</strong> "
        ++ pyStr (PyVal.dget evd "detail" (.str_ "")) ++ "</p>")),
    ("image_url", PyVal.dget evd "image_url" .none_),
    ("is_forecast", .bool_ true)]

/-- One inner-loop body of `generate_forecast_data`: handles a single `event`
of `category` from the record `dataDict`, threading the mutable
`forecast_data` dict. -/
def processForecastEvent (future_dates : List String)
    (dataDict : List (String × PyVal)) (category : String)
    (forecast_data : List (String × PyVal)) (event : PyVal) :
    Except String (List (String × PyVal)) :=
  match event with
  | .dict_ evd =>
    let pa := PyVal.dget evd "predicted_arrival" .none_
    -- if not predicted_arrival or predicted_arrival not in future_dates: continue
    if !pa.truthy then .ok forecast_data
    else if !PyVal.memList pa (future_dates.map PyVal.str_) then .ok forecast_data
    else
      match pa with
      | .str_ arrival =>
        -- if predicted_arrival not in forecast_data: create the entry
        let fd :=
          if (PyVal.lookup arrival forecast_data).isNone then
            PyVal.setKey arrival
              (.dict_ [("date", .str_ arrival),
                       ("is_forecast", .bool_ true),
                       ("events", emptyEvents)]) forecast_data
          else forecast_data
        let forecast_event : PyVal := forecastEventOf dataDict evd pa
        -- forecast_data[predicted_arrival]["events"][category].append(...)
        match PyVal.index (.dict_ fd) arrival with
        | .error e => .error e
        | .ok rec0 =>
          match rec0.index "events" with
          | .error e => .error e
          | .ok evmap =>
            match evmap.index category with
            | .error e => .error e
            | .ok (.list_ l) =>
              let evmap' := match evmap with
                | .dict_ em =>
                  PyVal.dict_ (PyVal.setKey category (.list_ (l ++ [forecast_event])) em)
                | other => other
              let rec' := match rec0 with
                | .dict_ r => PyVal.dict_ (PyVal.setKey "events" evmap' r)
                | other => other
              .ok (PyVal.setKey arrival rec' fd)
            | .ok _ => .error "AttributeError"
      | _ => .ok forecast_data -- unreachable: membership in a string list
  | _ => .ok forecast_data -- if not isinstance(event, dict): continue

/-- `for event in category_events:` loop of `generate_forecast_data`. -/
def processForecastEvents (future_dates : List String)
    (dataDict : List (String × PyVal)) (category : String)
    (forecast_data : List (String × PyVal)) :
    List PyVal → Except String (List (String × PyVal))
  | [] => .ok forecast_data
  | e :: es =>
    match processForecastEvent future_dates dataDict category forecast_data e with
    | .error err => .error err
    | .ok fd' => processForecastEvents future_dates dataDict category fd' es

/-- `for category, category_events in events.items():` loop of
`generate_forecast_data` (non-list category values are skipped). -/
def processForecastCats (future_dates : List String)
    (dataDict : List (String × PyVal)) (forecast_data : List (String × PyVal)) :
    List (String × PyVal) → Except String (List (String × PyVal))
  | [] => .ok forecast_data
  | (cat, .list_ evs) :: rest =>
    match processForecastEvents future_dates dataDict cat forecast_data evs with
    | .error err => .error err
    | .ok fd' => processForecastCats future_dates dataDict fd' rest
  | (_, _) :: rest => processForecastCats future_dates dataDict forecast_data rest

/-- `for data in data_list:` body of `generate_forecast_data`: skips falsy
records and records without an `"events"` key, raises AttributeError where
the source would (`.get`/`.items()` on a non-dict). -/
def processForecastRecord (future_dates : List String)
    (forecast_data : List (String × PyVal)) (data : PyVal) :
    Except String (List (String × PyVal)) :=
  if !data.truthy then .ok forecast_data
  else
    match data.contains "events" with
    | .error e => .error e
    | .ok false => .ok forecast_data
    | .ok true =>
      match data with
      | .dict_ dataDict =>
        match PyVal.dget dataDict "events" (.dict_ []) with
        | .dict_ evItems => processForecastCats future_dates dataDict forecast_data evItems
        | _ => .error "AttributeError" -- events.items() on a non-dict value
      | _ => .error "AttributeError" -- data.get("events", {}) on a non-dict

/-- The outer `for data in data_list:` loop. -/
def processForecastRecords (future_dates : List String)
    (forecast_data : List (String × PyVal)) :
    List PyVal → Except String (List (String × PyVal))
  | [] => .ok forecast_data
  | d :: ds =>
    match processForecastRecord future_dates forecast_data d with
    | .error err => .error err
    | .ok fd' => processForecastRecords future_dates fd' ds

/-- `data_manager.generate_forecast_data(data_list, date_range)`: scans every
event of every input record and projects events whose `predicted_arrival`
falls on a future date of `date_range` into synthetic forecast records.
`datetime.now().strftime("%Y-%m-%d")` is the `today` argument; `YYYY-MM-DD`
date strings are compared with Python `>` (lexicographic, which on that format
is chronological).  Returns the `forecast_data` dict (insertion-ordered
entries), or the Python exception the source would raise. -/
def generate_forecast_data (data_list : List PyVal) (date_range : List String)
    (today : String) : Except String (List (String × PyVal)) :=
  -- future_dates = [date for date in date_range if date > today]
  let future_dates : List String := date_range.filter (fun d => ltStr today d)
  if future_dates.isEmpty then .ok []
  else processForecastRecords future_dates [] data_list

/-! ## Dict lemmas -/

namespace PyVal

theorem lookup_setKey (k q : String) (v : PyVal) :
    ∀ l, lookup q (setKey k v l) = if q = k then some v else lookup q l := by
  intro l
  induction l with
  | nil =>
    by_cases h : q = k
    · simp [setKey, lookup, h]
    · simp [setKey, lookup, h, Ne.symm h]
  | cons hd tl ih =>
    obtain ⟨k', v'⟩ := hd
    by_cases hk : k' = k
    · subst hk
      by_cases hq : q = k'
      · simp [setKey, lookup, hq]
      · simp [setKey, lookup, hq, Ne.symm hq]
    · by_cases hq : q = k'
      · subst hq
        simp [setKey, lookup, hk, Ne.symm hk]
      · simp [setKey, lookup, hk, hq, Ne.symm hq, ih]

theorem mem_setKey (k : String) (v : PyVal) :
    ∀ l p, p ∈ setKey k v l → p = (k, v) ∨ p ∈ l := by
  intro l
  induction l with
  | nil => intro p hp; simp [setKey] at hp; left; exact hp
  | cons hd tl ih =>
    obtain ⟨k', v'⟩ := hd
    intro p hp
    by_cases hk : k' = k
    · subst hk
      simp only [setKey, if_pos rfl] at hp
      rcases List.mem_cons.mp hp with h | h
      · left; exact h
      · right; exact List.mem_cons_of_mem _ h
    · simp only [setKey, if_neg hk] at hp
      rcases List.mem_cons.mp hp with h | h
      · right; rw [h]; exact List.mem_cons_self _ _
      · rcases ih p h with h' | h'
        · left; exact h'
        · right; exact List.mem_cons_of_mem _ h'

theorem lookup_mem (k : String) (v : PyVal) :
    ∀ l, lookup k l = some v → (k, v) ∈ l := by
  intro l
  induction l with
  | nil => intro h; simp [lookup] at h
  | cons hd tl ih =>
    obtain ⟨k', v'⟩ := hd
    intro h
    by_cases hk : k' = k
    · subst hk
      simp only [lookup, eq_self_iff_true, if_true, Option.some.injEq] at h
      subst h
      exact List.mem_cons_self _ _
    · simp only [lookup, if_neg hk] at h
      exact List.mem_cons_of_mem _ (ih h)

end PyVal

/-! ## Totality of the Forecast Projector on standard-key inputs (C10) -/

/-- Records that keep the projector total: falsy, or dicts whose `"events"`
value (if present) is a dict binding only the four standard category keys. -/
def forecastSafe (rec : PyVal) : Bool :=
  !rec.truthy ||
  (match rec with
   | .dict_ d =>
     match PyVal.lookup "events" d with
     | Option.none => true
     | some (.dict_ em) => em.all (fun p => categories.contains p.1)
     | some _ => false
   | _ => false)

/-- Shape invariant of the synthetic records the projector builds: a dict whose
`"events"` entry is a dict holding each standard category as a list. -/
def fdRecOk (r : PyVal) : Prop :=
  ∃ rd em, r = .dict_ rd ∧ PyVal.lookup "events" rd = some (.dict_ em) ∧
    ∀ c ∈ categories, ∃ l, PyVal.lookup c em = some (.list_ l)

/-- All values of the accumulating `forecast_data` dict satisfy `fdRecOk`. -/
def fdOk (fd : List (String × PyVal)) : Prop := ∀ p ∈ fd, fdRecOk p.2

theorem fdOk_nil : fdOk [] := by intro p hp; cases hp

theorem fdOk_setKey {fd : List (String × PyVal)} {k : String} {r : PyVal}
    (hfd : fdOk fd) (hr : fdRecOk r) : fdOk (PyVal.setKey k r fd) := by
  intro p hp
  rcases PyVal.mem_setKey k r fd p hp with h | h
  · rw [h]; exact hr
  · exact hfd p h

theorem fdRecOk_fresh (arrival : String) :
    fdRecOk (.dict_ [("date", .str_ arrival), ("is_forecast", .bool_ true),
                     ("events", emptyEvents)]) := by
  refine ⟨_, _, rfl, rfl, ?_⟩
  intro c hc
  fin_cases hc <;> exact ⟨[], rfl⟩

theorem processForecastEvent_total (future : List String)
    (dataDict : List (String × PyVal)) (category : String)
    (hcat : category ∈ categories) (fd : List (String × PyVal)) (event : PyVal)
    (hfd : fdOk fd) :
    ∃ fd', processForecastEvent future dataDict category fd event = .ok fd' ∧ fdOk fd' := by
  cases event with
  | dict_ evd =>
    simp only [processForecastEvent]
    by_cases h1 : (!(PyVal.dget evd "predicted_arrival" PyVal.none_).truthy) = true
    · rw [if_pos h1]; exact ⟨fd, rfl, hfd⟩
    · rw [if_neg h1]
      by_cases h2 : (!PyVal.memList (PyVal.dget evd "predicted_arrival" PyVal.none_)
          (future.map PyVal.str_)) = true
      · rw [if_pos h2]; exact ⟨fd, rfl, hfd⟩
      · rw [if_neg h2]
        cases hpa : PyVal.dget evd "predicted_arrival" PyVal.none_ with
        | str_ arrival =>
          -- after the conditional insert, `arrival` is bound in the dict
          set fd1 := (if (PyVal.lookup arrival fd).isNone then
              PyVal.setKey arrival
                (.dict_ [("date", .str_ arrival), ("is_forecast", .bool_ true),
                         ("events", emptyEvents)]) fd
            else fd) with hfd1def
          have hfd1 : fdOk fd1 := by
            rw [hfd1def]
            split
            · exact fdOk_setKey hfd (fdRecOk_fresh arrival)
            · exact hfd
          have hlook : ∃ rec0, PyVal.lookup arrival fd1 = some rec0 := by
            rw [hfd1def]
            by_cases hin : (PyVal.lookup arrival fd).isNone
            · rw [if_pos hin, PyVal.lookup_setKey]
              exact ⟨_, by rw [if_pos rfl]⟩
            · rw [if_neg hin]
              cases h : PyVal.lookup arrival fd with
              | none => exact absurd (by rw [h]; rfl) hin
              | some r => exact ⟨r, rfl⟩
          rcases hlook with ⟨rec0, hrec0⟩
          have hrecOk : fdRecOk rec0 := hfd1 (arrival, rec0) (PyVal.lookup_mem _ _ _ hrec0)
          rcases hrecOk with ⟨rd, em, hrdeq, hev, hcats⟩
          rcases hcats category hcat with ⟨l, hl⟩
          refine ⟨PyVal.setKey arrival (PyVal.dict_ (PyVal.setKey "events"
              (PyVal.dict_ (PyVal.setKey category
                (PyVal.list_ (l ++ [forecastEventOf dataDict evd (PyVal.str_ arrival)])) em)) rd)) fd1,
            ?_, ?_⟩
          · simp only [PyVal.index, hrec0, hrdeq, hev, hl]
          · -- the updated record keeps the invariant shape
            apply fdOk_setKey hfd1
            refine ⟨_, PyVal.setKey category
                (PyVal.list_ (l ++ [forecastEventOf dataDict evd (PyVal.str_ arrival)])) em,
              rfl, ?_, ?_⟩
            · rw [PyVal.lookup_setKey]
              simp
            · intro c hc
              rw [PyVal.lookup_setKey]
              by_cases hcc : c = category
              · rw [if_pos hcc]; exact ⟨_, rfl⟩
              · rw [if_neg hcc]; exact hcats c hc
        | none_ => exact ⟨fd, rfl, hfd⟩
        | bool_ b => exact ⟨fd, rfl, hfd⟩
        | int_ i => exact ⟨fd, rfl, hfd⟩
        | float_ f => exact ⟨fd, rfl, hfd⟩
        | list_ l => exact ⟨fd, rfl, hfd⟩
        | dict_ d => exact ⟨fd, rfl, hfd⟩
  | none_ => exact ⟨fd, rfl, hfd⟩
  | bool_ b => exact ⟨fd, rfl, hfd⟩
  | int_ i => exact ⟨fd, rfl, hfd⟩
  | float_ f => exact ⟨fd, rfl, hfd⟩
  | str_ s => exact ⟨fd, rfl, hfd⟩
  | list_ l => exact ⟨fd, rfl, hfd⟩

theorem processForecastEvents_total (future : List String)
    (dataDict : List (String × PyVal)) (category : String)
    (hcat : category ∈ categories) :
    ∀ (evs : List PyVal) (fd : List (String × PyVal)), fdOk fd →
      ∃ fd', processForecastEvents future dataDict category fd evs = .ok fd' ∧ fdOk fd' := by
  intro evs
  induction evs with
  | nil => intro fd hfd; exact ⟨fd, rfl, hfd⟩
  | cons e es ih =>
    intro fd hfd
    rcases processForecastEvent_total future dataDict category hcat fd e hfd with ⟨fd1, h1, hok1⟩
    rcases ih fd1 hok1 with ⟨fd2, h2, hok2⟩
    exact ⟨fd2, by simp only [processForecastEvents, h1, h2], hok2⟩

theorem processForecastCats_total (future : List String)
    (dataDict : List (String × PyVal)) :
    ∀ (items : List (String × PyVal)) (fd : List (String × PyVal)),
      (∀ p ∈ items, p.1 ∈ categories) → fdOk fd →
      ∃ fd', processForecastCats future dataDict fd items = .ok fd' ∧ fdOk fd' := by
  intro items
  induction items with
  | nil => intro fd _ hfd; exact ⟨fd, rfl, hfd⟩
  | cons p rest ih =>
    intro fd hkeys hfd
    obtain ⟨cat, v⟩ := p
    have hcat : cat ∈ categories := hkeys (cat, v) (List.mem_cons_self _ _)
    have hrest : ∀ q ∈ rest, q.1 ∈ categories :=
      fun q hq => hkeys q (List.mem_cons_of_mem _ hq)
    cases v with
    | list_ evs =>
      rcases processForecastEvents_total future dataDict cat hcat evs fd hfd with ⟨fd1, h1, hok1⟩
      rcases ih fd1 hrest hok1 with ⟨fd2, h2, hok2⟩
      exact ⟨fd2, by simp only [processForecastCats, h1, h2], hok2⟩
    | none_ => exact ih fd hrest hfd
    | bool_ b => exact ih fd hrest hfd
    | int_ i => exact ih fd hrest hfd
    | float_ f => exact ih fd hrest hfd
    | str_ s => exact ih fd hrest hfd
    | dict_ d => exact ih fd hrest hfd

theorem processForecastRecord_total (future : List String)
    (fd : List (String × PyVal)) (data : PyVal)
    (hsafe : forecastSafe data = true) (hfd : fdOk fd) :
    ∃ fd', processForecastRecord future fd data = .ok fd' ∧ fdOk fd' := by
  by_cases ht : (!data.truthy) = true
  · exact ⟨fd, by simp only [processForecastRecord, if_pos ht], hfd⟩
  · cases data with
    | dict_ d =>
      cases hl : PyVal.lookup "events" d with
      | none =>
        refine ⟨fd, ?_, hfd⟩
        simp only [processForecastRecord, if_neg ht, PyVal.contains, hl, Option.isSome_none]
      | some ev =>
        cases ev with
        | dict_ em =>
          have hkeys : ∀ p ∈ em, p.1 ∈ categories := by
            have : List.all em (fun p => categories.contains p.1) = true := by
              simp only [forecastSafe, ht, Bool.false_or] at hsafe
              rw [hl] at hsafe
              exact hsafe
            intro p hp
            have := List.all_eq_true.mp this p hp
            exact List.elem_iff.mp this
          rcases processForecastCats_total future d em fd hkeys hfd with ⟨fd', h', hok'⟩
          refine ⟨fd', ?_, hok'⟩
          simp only [processForecastRecord, if_neg ht, PyVal.contains, hl, Option.isSome_some,
            PyVal.dget, Option.getD_some, h']
        | none_ => simp [forecastSafe, ht, hl] at hsafe
        | bool_ b => simp [forecastSafe, ht, hl] at hsafe
        | int_ i => simp [forecastSafe, ht, hl] at hsafe
        | float_ f => simp [forecastSafe, ht, hl] at hsafe
        | str_ s => simp [forecastSafe, ht, hl] at hsafe
        | list_ l => simp [forecastSafe, ht, hl] at hsafe
    | none_ => simp [PyVal.truthy] at ht
    | bool_ b => simp [forecastSafe, ht] at hsafe
    | int_ i => simp [forecastSafe, ht] at hsafe
    | float_ f => simp [forecastSafe, ht] at hsafe
    | str_ s => simp [forecastSafe, ht] at hsafe
    | list_ l => simp [forecastSafe, ht] at hsafe

theorem processForecastRecords_total (future : List String) :
    ∀ (data_list : List PyVal) (fd : List (String × PyVal)),
      (∀ rec ∈ data_list, forecastSafe rec = true) → fdOk fd →
      ∃ fd', processForecastRecords future fd data_list = .ok fd' ∧ fdOk fd' := by
  intro data_list
  induction data_list with
  | nil => intro fd _ hfd; exact ⟨fd, rfl, hfd⟩
  | cons d ds ih =>
    intro fd hsafe hfd
    rcases processForecastRecord_total future fd d (hsafe d (List.mem_cons_self _ _)) hfd with
      ⟨fd1, h1, hok1⟩
    rcases ih fd1 (fun r hr => hsafe r (List.mem_cons_of_mem _ hr)) hok1 with ⟨fd2, h2, hok2⟩
    exact ⟨fd2, by simp only [processForecastRecords, h1, h2], hok2⟩

theorem isEmpty_false_of_mem {α : Type} {a : α} {l : List α} (h : a ∈ l) :
    l.isEmpty = false := by
  cases l with
  | nil => cases h
  | cons x xs => rfl

/-- C10: `generate_forecast_data` is total exactly on standard-key inputs: for
every input list in which each record's events mapping uses only the keys
`cme`, `sunspot`, `flares`, `coronal_holes`, the projector returns without
error; and a record holding an event under any other category key (here
`"aurora"`) with a `predicted_arrival` inside the future part of the window
makes it raise an uncaught KeyError, because the synthetic record's events
mapping is initialised with only the four standard keys before the source
category is indexed. -/
theorem generate_forecast_data_total_on_standard_keys :
    (∀ (data_list : List PyVal) (date_range : List String) (today : String),
       (∀ rec ∈ data_list, forecastSafe rec = true) →
       ∃ fd, generate_forecast_data data_list date_range today = .ok fd)
    ∧ generate_forecast_data
        [.dict_ [("date", .str_ "2024-05-01"),
                 ("events", .dict_ [("aurora", .list_
                    [.dict_ [("predicted_arrival", .str_ "2024-05-06")]])])]]
        ["2024-05-06"] "2024-05-01" = .error "KeyError" := by
  constructor
  · intro data_list date_range today hsafe
    simp only [generate_forecast_data]
    split
    · exact ⟨[], rfl⟩
    · rcases processForecastRecords_total _ data_list [] hsafe fdOk_nil with ⟨fd, h, _⟩
      exact ⟨fd, h⟩
  · rfl

/-- Witness for `generate_forecast_data_total_on_standard_keys`: its totality
hypothesis holds for a concrete standard-key record and is discharged there. -/
theorem generate_forecast_data_total_on_standard_keys_witness :
    ∃ fd, generate_forecast_data
        [.dict_ [("date", .str_ "2024-05-01"),
                 ("events", .dict_ [("cme", .list_
                    [.dict_ [("tone", .str_ "Normal"),
                             ("predicted_arrival", .str_ "2024-05-06")]]),
                    ("sunspot", .list_ []), ("flares", .list_ []),
                    ("coronal_holes", .list_ [])])]]
        ["2024-05-06"] "2024-05-01" = .ok fd :=
  generate_forecast_data_total_on_standard_keys.1 _ _ _
    (by intro rec hrec; rw [List.mem_singleton.mp hrec]; rfl)

/-- C9: for an input record on day `D` with exactly one event, predicted to
arrive at `A` — a date of the requested window strictly after today —
`generate_forecast_data` yields exactly one synthetic record, keyed by `A`,
flagged `is_forecast`, holding exactly one derived event in the same category
whose observed date (`"date"` field) is `D`, whose `predicted_arrival` is
unchanged, and whose detail is the forecast-labelled wrapper of the original
detail. -/
theorem generate_forecast_data_single_projection
    (D A detail : String) (tone img : PyVal) (category : String)
    (date_range : List String) (today : String)
    (hcat : category ∈ categories)
    (hmem : A ∈ date_range) (hfut : ltStr today A = true) (hA : A ≠ "") :
    generate_forecast_data
      [.dict_ [("date", .str_ D),
               ("events", .dict_ (PyVal.setKey category
                  (.list_ [.dict_ [("tone", tone), ("date", .str_ D),
                                   ("predicted_arrival", .str_ A),
                                   ("detail", .str_ detail),
                                   ("image_url", img)]])
                  [("cme", .list_ []), ("sunspot", .list_ []),
                   ("flares", .list_ []), ("coronal_holes", .list_ [])]))]]
      date_range today
    = .ok [(A, .dict_ [("date", .str_ A), ("is_forecast", .bool_ true),
            ("events", .dict_ (PyVal.setKey category
               (.list_ [.dict_ [("tone", tone), ("date", .str_ D),
                                ("predicted_arrival", .str_ A),
                                ("detail", .str_ ("<p><strong>Forecast:</strong> "
                                    ++ detail ++ "</p>")),
                                ("image_url", img), ("is_forecast", .bool_ true)]])
               [("cme", .list_ []), ("sunspot", .list_ []),
                ("flares", .list_ []), ("coronal_holes", .list_ [])]))])] := by
  have hfilter : A ∈ date_range.filter (fun d => ltStr today d) :=
    List.mem_filter.mpr ⟨hmem, hfut⟩
  have hempty : (date_range.filter (fun d => ltStr today d)).isEmpty = false :=
    isEmpty_false_of_mem hfilter
  have htruthy : PyVal.truthy (.str_ A) = true := by
    simp [PyVal.truthy, hA]
  have hmemlist : PyVal.memList (.str_ A)
      ((date_range.filter (fun d => ltStr today d)).map PyVal.str_) = true := by
    unfold PyVal.memList
    rw [List.any_eq_true]
    exact ⟨.str_ A, List.mem_map_of_mem _ hfilter, by simp [PyVal.pyEq]⟩
  fin_cases hcat <;>
  · simp only [generate_forecast_data, hempty, Bool.false_eq_true, if_false,
      processForecastRecords, processForecastRecord, processForecastCats,
      processForecastEvents, processForecastEvent, PyVal.setKey, PyVal.lookup,
      PyVal.truthy, PyVal.contains, PyVal.dget, PyVal.get, PyVal.index,
      forecastEventOf, pyStr]
    simp [htruthy, hmemlist, processForecastCats, processForecastEvents,
      processForecastEvent, PyVal.setKey, PyVal.lookup, PyVal.dget,
      PyVal.index, forecastEventOf, pyStr, emptyEvents]

/-- Witness for `generate_forecast_data_single_projection` at concrete dates. -/
theorem generate_forecast_data_single_projection_witness :
    generate_forecast_data
      [.dict_ [("date", .str_ "2024-05-01"),
               ("events", .dict_ (PyVal.setKey "cme"
                  (.list_ [.dict_ [("tone", .str_ "Significant"),
                                   ("date", .str_ "2024-05-01"),
                                   ("predicted_arrival", .str_ "2024-05-06"),
                                   ("detail", .str_ "Fast CME"),
                                   ("image_url", .none_)]])
                  [("cme", .list_ []), ("sunspot", .list_ []),
                   ("flares", .list_ []), ("coronal_holes", .list_ [])]))]]
      ["2024-05-04", "2024-05-05", "2024-05-06"] "2024-05-04"
    = .ok [("2024-05-06", .dict_ [("date", .str_ "2024-05-06"),
            ("is_forecast", .bool_ true),
            ("events", .dict_ (PyVal.setKey "cme"
               (.list_ [.dict_ [("tone", .str_ "Significant"),
                                ("date", .str_ "2024-05-01"),
                                ("predicted_arrival", .str_ "2024-05-06"),
                                ("detail", .str_ ("<p><strong>Forecast:</strong> "
                                    ++ "Fast CME" ++ "</p>")),
                                ("image_url", .none_), ("is_forecast", .bool_ true)]])
               [("cme", .list_ []), ("sunspot", .list_ []),
                ("flares", .list_ []), ("coronal_holes", .list_ [])]))])] :=
  generate_forecast_data_single_projection "2024-05-01" "2024-05-06" "Fast CME"
    (.str_ "Significant") .none_ "cme"
    ["2024-05-04", "2024-05-05", "2024-05-06"] "2024-05-04"
    (by decide) (by decide) (by decide) (by decide)

/-! ## Range Processor (`data_manager.process_date_range`): date enumeration

Datetimes are modelled as integer seconds; `YYYY-MM-DD` date strings become
their day numbers (the correspondence `dayNumber ↦ dateString` is a strictly
monotone bijection, so string comparison of dates matches integer comparison).
`datetime.strptime(date_str, "%Y-%m-%d")` is `day * 86400` (midnight);
`strftime("%Y-%m-%d")` is flooring division by 86400; `timedelta(days=n)` is
`n * 86400`.  The two `datetime.now()` calls of the source are modelled as the
same instant `now`. -/

/-- The `while temp_date_obj <= end_date_obj:` loop of `process_date_range`,
appending `temp.strftime("%Y-%m-%d")` whenever `temp <= today_obj`.  The loop
is fuel-bounded; every call site supplies fuel covering all iterations. -/
def genDates (endv nowv : Int) : Nat → Int → List Int
  | 0, _ => []
  | Nat.succ fuel, temp =>
    if temp ≤ endv then
      (if temp ≤ nowv then [temp / 86400] else [])
        ++ genDates endv nowv fuel (temp + 86400)
    else []

/-- Number of loop iterations of `genDates` from `temp` (one per day step up
to `endv`, inclusive). -/
def dateCount (temp endv : Int) : Nat :=
  if temp ≤ endv then ((endv - temp).toNat / 86400) + 1 else 0

/-- The date-sequence portion of `data_manager.process_date_range`: clamps the
end to `now` when in the future, clamps the start to `now` minus the
`days`-day lookback, and enumerates the resulting dates. -/
def process_date_range_dates (start_date end_date : Option Int) (days : Nat)
    (now : Int) : List Int :=
  -- today = datetime.now(); if end_date is None: end_date = today.strftime(...)
  let endDay : Int := match end_date with
    | some e => e
    | none => now / 86400
  -- if start_date is None: start_date = (strptime(end_date) - timedelta(days)).strftime(...)
  let startDay : Int := match start_date with
    | some s => s
    | none => endDay - days
  -- current_date_obj = strptime(start_date); end_date_obj = strptime(end_date)
  let current0 : Int := startDay * 86400
  let end0 : Int := endDay * 86400
  -- if end_date_obj > today: end_date_obj = today
  let end1 : Int := if end0 > now then now else end0
  -- earliest_date = today - timedelta(days=days); clamp the start
  let earliest : Int := now - (days : Int) * 86400
  let current1 : Int := if current0 < earliest then earliest else current0
  genDates end1 now ((end1 - current1).toNat / 86400 + 1) current1

theorem genDates_mem_lb (endv nowv : Int) :
    ∀ (fuel : Nat) (temp x : Int), x ∈ genDates endv nowv fuel temp →
      temp / 86400 ≤ x := by
  intro fuel
  induction fuel with
  | zero => intro temp x hx; cases hx
  | succ fuel ih =>
    intro temp x hx
    simp only [genDates] at hx
    by_cases hle : temp ≤ endv
    · rw [if_pos hle] at hx
      rcases List.mem_append.mp hx with h | h
      · by_cases hnow : temp ≤ nowv
        · rw [if_pos hnow] at h
          rw [List.mem_singleton.mp h]
        · rw [if_neg hnow] at h; cases h
      · have := ih (temp + 86400) x h
        have hstep : temp / 86400 ≤ (temp + 86400) / 86400 := by omega
        omega
    · rw [if_neg hle] at hx; cases hx

theorem genDates_le_today (endv nowv : Int) :
    ∀ (fuel : Nat) (temp x : Int), x ∈ genDates endv nowv fuel temp →
      x ≤ nowv / 86400 := by
  intro fuel
  induction fuel with
  | zero => intro temp x hx; cases hx
  | succ fuel ih =>
    intro temp x hx
    simp only [genDates] at hx
    by_cases hle : temp ≤ endv
    · rw [if_pos hle] at hx
      rcases List.mem_append.mp hx with h | h
      · by_cases hnow : temp ≤ nowv
        · rw [if_pos hnow] at h
          rw [List.mem_singleton.mp h]
          omega
        · rw [if_neg hnow] at h; cases h
      · exact ih (temp + 86400) x h
    · rw [if_neg hle] at hx; cases hx

theorem genDates_sorted (endv nowv : Int) :
    ∀ (fuel : Nat) (temp : Int), (genDates endv nowv fuel temp).Pairwise (· < ·) := by
  intro fuel
  induction fuel with
  | zero => intro temp; exact List.Pairwise.nil
  | succ fuel ih =>
    intro temp
    simp only [genDates]
    by_cases hle : temp ≤ endv
    · rw [if_pos hle]
      by_cases hnow : temp ≤ nowv
      · rw [if_pos hnow]
        simp only [List.singleton_append, List.pairwise_cons]
        refine ⟨?_, ih (temp + 86400)⟩
        intro x hx
        have := genDates_mem_lb endv nowv fuel (temp + 86400) x hx
        omega
      · rw [if_neg hnow]
        simpa using ih (temp + 86400)
    · rw [if_neg hle]
      exact List.Pairwise.nil

/-- `n` consecutive day numbers starting from `lo`. -/
def dayList (lo : Int) : Nat → List Int
  | 0 => []
  | Nat.succ n => lo :: dayList (lo + 1) n

theorem genDates_closed_form (endv nowv : Int) (hen : endv ≤ nowv) :
    ∀ (fuel : Nat) (a sec : Int), 0 ≤ sec → sec < 86400 →
      dateCount (a * 86400 + sec) endv ≤ fuel →
      genDates endv nowv fuel (a * 86400 + sec)
        = dayList a (dateCount (a * 86400 + sec) endv) := by
  intro fuel
  induction fuel with
  | zero =>
    intro a sec h0 h1 hfuel
    have : dateCount (a * 86400 + sec) endv = 0 := Nat.le_zero.mp hfuel
    rw [this]
    rfl
  | succ fuel ih =>
    intro a sec h0 h1 hfuel
    by_cases hle : a * 86400 + sec ≤ endv
    · have hnow : a * 86400 + sec ≤ nowv := le_trans hle hen
      have hday : (a * 86400 + sec) / 86400 = a := by omega
      have hcount : dateCount (a * 86400 + sec) endv
          = dateCount ((a + 1) * 86400 + sec) endv + 1 := by
        simp only [dateCount]
        rw [if_pos hle]
        by_cases h2 : (a + 1) * 86400 + sec ≤ endv
        · rw [if_pos h2]; omega
        · rw [if_neg h2]; omega
      have hstep : a * 86400 + sec + 86400 = (a + 1) * 86400 + sec := by ring
      simp only [genDates]
      rw [if_pos hle, if_pos hnow, hday, hstep,
        ih (a + 1) sec h0 h1 (by omega), hcount]
      rfl
    · have : dateCount (a * 86400 + sec) endv = 0 := by simp [dateCount, hle]
      rw [this]
      simp only [genDates]
      rw [if_neg hle]
      rfl

/-- The inclusive day window `[lo, hi]` as a list of day numbers. -/
def dayWindow (lo hi : Int) : List Int :=
  dayList lo ((hi - lo).toNat + 1)

theorem dayList_mem (x : Int) : ∀ (n : Nat) (lo : Int),
    x ∈ dayList lo n ↔ lo ≤ x ∧ x < lo + n := by
  intro n
  induction n with
  | zero => intro lo; simp [dayList]
  | succ n ih =>
    intro lo
    simp only [dayList, List.mem_cons, ih (lo + 1)]
    constructor
    · rintro (rfl | ⟨h1, h2⟩) <;> constructor <;> omega
    · intro ⟨h1, h2⟩
      by_cases hx : x = lo
      · left; exact hx
      · right; constructor <;> omega

/-- With a future end date, `process_date_range_dates` enumerates exactly the
full inclusive clamped window from `max start (today - days)` to `today`. -/
theorem process_date_range_dates_future_end
    (startDay e today sec : Int) (days : Nat)
    (h0 : 0 ≤ sec) (h1 : sec < 86400)
    (hfut : e * 86400 > today * 86400 + sec)
    (hstart : startDay ≤ today) :
    process_date_range_dates (some startDay) (some e) days (today * 86400 + sec)
      = dayWindow (max startDay (today - days)) today := by
  simp only [process_date_range_dates, dayWindow]
  rw [if_pos hfut]
  by_cases hcl : startDay * 86400 < today * 86400 + sec - (days : Int) * 86400
  · rw [if_pos hcl]
    have hsplit : today * 86400 + sec - (days : Int) * 86400
        = (today - days) * 86400 + sec := by ring
    rw [hsplit]
    rw [genDates_closed_form _ _ le_rfl _ _ _ h0 h1 (by
      simp only [dateCount]
      split <;> omega)]
    have hmax : max startDay (today - (days : Int)) = today - days := by omega
    have hcount : dateCount ((today - (days : Int)) * 86400 + sec)
        (today * 86400 + sec) = (today - (today - (days : Int))).toNat + 1 := by
      simp only [dateCount]
      rw [if_pos (by omega)]
      omega
    rw [hmax, hcount]
  · rw [if_neg hcl]
    have hform : startDay * 86400 = startDay * 86400 + 0 := by ring
    rw [hform, genDates_closed_form _ _ le_rfl _ _ _ le_rfl (by omega) (by
      simp only [dateCount]
      split <;> omega)]
    have hmax : max startDay (today - (days : Int)) = startDay := by omega
    have hcount : dateCount (startDay * 86400 + 0) (today * 86400 + sec)
        = (today - startDay).toNat + 1 := by
      simp only [dateCount]
      rw [if_pos (by omega)]
      omega
    rw [hmax, hcount]

/-- With an end date not in the future and a start clamped to the lookback
bound (and a strictly-positive time of day), the enumeration stops one day
short: it covers `[today - days, e - 1]`, omitting the window's final date. -/
theorem process_date_range_dates_end_omitted
    (startDay e today sec : Int) (days : Nat)
    (h0 : 0 < sec) (h1 : sec < 86400)
    (hnotfut : e ≤ today)
    (hclamp : startDay * 86400 < today * 86400 + sec - (days : Int) * 86400)
    (hwin : today - days < e) :
    process_date_range_dates (some startDay) (some e) days (today * 86400 + sec)
      = dayWindow (today - days) (e - 1) := by
  simp only [process_date_range_dates, dayWindow]
  rw [if_neg (by omega)]
  rw [if_pos hclamp]
  have hsplit : today * 86400 + sec - (days : Int) * 86400
      = (today - days) * 86400 + sec := by ring
  rw [hsplit]
  rw [genDates_closed_form _ _ (by omega) _ _ _ (by omega) h1 (by
    simp only [dateCount]
    split <;> omega)]
  have hcount : dateCount ((today - (days : Int)) * 86400 + sec) (e * 86400)
      = (e - 1 - (today - (days : Int))).toNat + 1 := by
    simp only [dateCount]
    rw [if_pos (by omega)]
    omega
  rw [hcount]

/-! ## Section Extractor (`scraper.py`) -/

/-- The dict returned by `scrape_spaceweather` (or the minimal placeholder
built by `process_date` when scraping yields nothing). -/
structure ScrapedData where
  date : String
  url : String
  html : String
  text : String
  images : List PyVal

/-- The Section Bundle built by `extract_spaceweather_sections`. -/
structure Sections where
  cme : List String
  sunspot : List String
  flares : List String
  coronal_holes : List String
  full_text : String
  date : String
  url : String
  images : List PyVal

/-- Start positions of `re.finditer(re.escape(keyword), text, re.IGNORECASE)`:
case-insensitive, non-overlapping, scanned left to right.  Fuel-structural
(fuel is the text length at the call site). -/
def kwMatches (kw : List Char) : Nat → List Char → Nat → List Nat
  | _, [], _ => []
  | 0, _, _ => [] -- unreachable: fuel is at least the text length
  | Nat.succ fuel, c :: cs, i =>
    if startsWithL (lowerL kw) (lowerL (c :: cs)) && !kw.isEmpty then
      i :: kwMatches kw fuel ((c :: cs).drop kw.length) (i + kw.length)
    else
      kwMatches kw fuel cs (i + 1)

/-- Keep the first occurrence of each snippet (`if snippet not in
unique_snippets: unique_snippets.append(snippet)`). -/
def dedupKeepOrder (l : List String) : List String :=
  l.foldl (fun acc s => if acc.contains s then acc else acc ++ [s]) []

/-- `scraper.extract_text_around_keywords(text, keywords, context_chars=500)`:
every case-insensitive occurrence of a keyword is expanded to a window of
`context_chars` characters on each side; duplicate windows are dropped,
keeping first-occurrence order. -/
def extract_text_around_keywords (text : String) (keywords : List String)
    (context_chars : Nat := 500) : List String :=
  let cs := text.toList
  let snippets := (keywords.map (fun kw =>
    let kwl := kw.toList
    (kwMatches kwl cs.length cs 0).map (fun i =>
      -- start = max(0, match.start() - context); end = min(len, match.end() + context)
      let start := i - context_chars
      let stop := min cs.length (i + kwl.length + context_chars)
      String.mk ((cs.drop start).take (stop - start))))).flatten
  dedupKeepOrder snippets

/-- `scraper.extract_spaceweather_sections(scraped_data)`: `None` input (the
source's falsy check) yields `None`; otherwise the keyword-windowed Section
Bundle. -/
def extract_spaceweather_sections : Option ScrapedData → Option Sections
  | Option.none => Option.none
  | some sd =>
    some {
      cme := extract_text_around_keywords sd.text
        ["coronal mass ejection", "CME", "filament eruption"],
      sunspot := extract_text_around_keywords sd.text
        ["sunspot", "sunspots", "AR"],
      flares := extract_text_around_keywords sd.text
        ["solar flare", "X-class", "M-class", "C-class"],
      coronal_holes := extract_text_around_keywords sd.text
        ["coronal hole", "solar wind"],
      full_text := sd.text,
      date := sd.date,
      url := sd.url,
      images := sd.images }

/-- Python slicing `s[a:b]` on strings (for the archive-URL construction). -/
def sliceStr (s : String) (a b : Nat) : String :=
  String.mk ((s.toList.drop a).take (b - a))

/-- The minimal scraped-data structure `process_date` substitutes when
`scrape_spaceweather` returns nothing (`data_manager.py` lines 136-149). -/
def placeholderScraped (date_str : String) : ScrapedData :=
  { date := date_str,
    url := "https://spaceweather.com/archive.php?view=1&day=" ++ sliceStr date_str 8 10
      ++ "&month=" ++ sliceStr date_str 5 7 ++ "&year=" ++ sliceStr date_str 0 4,
    html := "",
    text := "No data available for " ++ date_str,
    images := [] }

/-- C7 counterexample: the claim says the Section Extractor returns a Section
Bundle for every input, including absent raw text; but on absent input
(`scraped_data` falsy) `extract_spaceweather_sections` returns `None`, not a
bundle. -/
theorem extract_spaceweather_sections_none_input :
    extract_spaceweather_sections Option.none = Option.none := rfl

/-- C7 (amended): the Section Extractor returns `None` on absent raw input; on
every present input it returns a Section Bundle carrying the input's full
text, date and source reference; and the absent-source case is recovered one
level up — `process_date` substitutes a placeholder scraped structure with
sentinel text, whose extraction yields a bundle with empty snippet lists for
all four categories and the sentinel `full_text`. -/
theorem extract_spaceweather_sections_spec :
    (extract_spaceweather_sections Option.none = Option.none)
    ∧ (∀ sd : ScrapedData, ∃ b : Sections,
        extract_spaceweather_sections (some sd) = some b
        ∧ b.full_text = sd.text ∧ b.date = sd.date ∧ b.url = sd.url ∧ b.images = sd.images)
    ∧ (extract_spaceweather_sections (some (placeholderScraped "2024-05-01"))
        = some { cme := [], sunspot := [], flares := [], coronal_holes := [],
                 full_text := "No data available for 2024-05-01",
                 date := "2024-05-01",
                 url := "https://spaceweather.com/archive.php?view=1&day=01&month=05&year=2024",
                 images := [] }) := by
  refine ⟨rfl, ?_, by rfl⟩
  intro sd
  exact ⟨_, rfl, rfl, rfl, rfl, rfl⟩

/-! ## `json.loads` (CPython's strict JSON decoder)

A total, fuel-structural model of Python's `json.loads`: JSON whitespace,
objects with last-wins duplicate keys in first-insertion order, arrays,
strings with escapes and `\uXXXX` (surrogate pairs combined; a lone surrogate,
which CPython would keep, is unrepresentable in Lean's `Char` and is rejected
— no input in this development contains one), numbers (ints versus floats,
floats kept as their raw token), the `NaN`/`Infinity`/`-Infinity` extensions,
and the trailing "Extra data" check.  Failure (`Option.none`) stands for
`json.JSONDecodeError`, which every call site catches generically. -/

def jsonWsC (c : Char) : Bool := c == ' ' || c == '\t' || c == '\n' || c == '\r'

def skipJsonWs (cs : List Char) : List Char := cs.dropWhile jsonWsC

def isDigitC (c : Char) : Bool := 48 ≤ c.toNat && c.toNat ≤ 57

def hexValC (c : Char) : Option Nat :=
  if 48 ≤ c.toNat && c.toNat ≤ 57 then some (c.toNat - 48)
  else if 97 ≤ c.toNat && c.toNat ≤ 102 then some (c.toNat - 97 + 10)
  else if 65 ≤ c.toNat && c.toNat ≤ 70 then some (c.toNat - 65 + 10)
  else none

def hex4 (a b c d : Char) : Option Nat := do
  let va ← hexValC a; let vb ← hexValC b; let vc ← hexValC c; let vd ← hexValC d
  return ((va * 16 + vb) * 16 + vc) * 16 + vd

def jsonUnescape (c : Char) : Option Char :=
  match c with
  | '"' => some '"'
  | '\\' => some '\\'
  | '/' => some '/'
  | 'b' => some (Char.ofNat 8)
  | 'f' => some (Char.ofNat 12)
  | 'n' => some '\n'
  | 'r' => some '\r'
  | 't' => some '\t'
  | _ => none

/-- JSON string body after the opening quote.  Strict mode: raw control
characters below 0x20 are rejected, as CPython's default decoder does. -/
def parseJStr : Nat → List Char → List Char → Option (String × List Char)
  | _, _, [] => Option.none
  | 0, _, _ => Option.none -- unreachable: fuel covers the text length
  | Nat.succ fuel, acc, c :: rest =>
    if c == '"' then some (String.mk acc.reverse, rest)
    else if c == '\\' then
      match rest with
      | 'u' :: a :: b :: c2 :: d :: rest2 =>
        match hex4 a b c2 d with
        | Option.none => Option.none
        | some n =>
          if 0xD800 ≤ n && n ≤ 0xDBFF then
            -- a high surrogate must pair with a following \uDC00-\uDFFF
            match rest2 with
            | '\\' :: 'u' :: a2 :: b2 :: c3 :: d2 :: rest3 =>
              match hex4 a2 b2 c3 d2 with
              | some m =>
                if 0xDC00 ≤ m && m ≤ 0xDFFF then
                  parseJStr fuel
                    (Char.ofNat (0x10000 + (n - 0xD800) * 0x400 + (m - 0xDC00)) :: acc) rest3
                else Option.none
              | Option.none => Option.none
            | _ => Option.none
          else if 0xDC00 ≤ n && n ≤ 0xDFFF then Option.none -- lone low surrogate
          else parseJStr fuel (Char.ofNat n :: acc) rest2
      | e :: rest2 =>
        match jsonUnescape e with
        | some ch => parseJStr fuel (ch :: acc) rest2
        | Option.none => Option.none
      | [] => Option.none
    else if c.toNat < 0x20 then Option.none
    else parseJStr fuel (c :: acc) rest

def takeDigitsL : List Char → List Char × List Char
  | [] => ([], [])
  | c :: cs =>
    if isDigitC c then
      let (ds, r) := takeDigitsL cs
      (c :: ds, r)
    else ([], c :: cs)

def digitsToNat (ds : List Char) : Nat :=
  ds.foldl (fun a c => a * 10 + (c.toNat - 48)) 0

/-- Fraction and exponent of a JSON number (CPython's NUMBER_RE): each part is
taken only when syntactically complete, otherwise the token ends before it. -/
def finishJNum (neg : Bool) (intDs : List Char) (cs : List Char) :
    Option (PyVal × List Char) :=
  let (fracDs, cs2) : List Char × List Char :=
    match cs with
    | '.' :: r =>
      match takeDigitsL r with
      | ([], _) => ([], cs)
      | (ds, r2) => (ds, r2)
    | _ => ([], cs)
  let (expCs, cs3) : List Char × List Char :=
    match cs2 with
    | e :: r =>
      if e == 'e' || e == 'E' then
        match r with
        | s :: r2 =>
          if s == '+' || s == '-' then
            match takeDigitsL r2 with
            | ([], _) => ([], cs2)
            | (ds, r3) => (e :: s :: ds, r3)
          else
            match takeDigitsL r with
            | ([], _) => ([], cs2)
            | (ds, r3) => (e :: ds, r3)
        | [] => ([], cs2)
      else ([], cs2)
    | [] => ([], cs2)
  if fracDs.isEmpty && expCs.isEmpty then
    some (.int_ ((if neg then (-1 : Int) else 1) * (digitsToNat intDs : Int)), cs3)
  else
    some (.float_ (String.mk ((if neg then ['-'] else []) ++ intDs
      ++ (if fracDs.isEmpty then [] else '.' :: fracDs) ++ expCs)), cs3)

def parseJNum (cs : List Char) : Option (PyVal × List Char) :=
  let (neg, cs1) : Bool × List Char :=
    match cs with
    | '-' :: r => (true, r)
    | _ => (false, cs)
  match cs1 with
  | c :: rest =>
    if c == '0' then finishJNum neg ['0'] rest -- no leading zeros
    else if isDigitC c then
      let (ds, r) := takeDigitsL rest
      finishJNum neg (c :: ds) r
    else Option.none
  | [] => Option.none

mutual
def parseJVal : Nat → List Char → Option (PyVal × List Char)
  | 0, _ => Option.none -- unreachable: fuel covers the input
  | Nat.succ fuel, cs =>
    match skipJsonWs cs with
    | 'n' :: 'u' :: 'l' :: 'l' :: r => some (.none_, r)
    | 't' :: 'r' :: 'u' :: 'e' :: r => some (.bool_ true, r)
    | 'f' :: 'a' :: 'l' :: 's' :: 'e' :: r => some (.bool_ false, r)
    | 'N' :: 'a' :: 'N' :: r => some (.float_ "nan", r)
    | 'I' :: 'n' :: 'f' :: 'i' :: 'n' :: 'i' :: 't' :: 'y' :: r => some (.float_ "inf", r)
    | '-' :: 'I' :: 'n' :: 'f' :: 'i' :: 'n' :: 'i' :: 't' :: 'y' :: r =>
      some (.float_ "-inf", r)
    | '"' :: r =>
      match parseJStr r.length [] r with
      | some (s, r') => some (.str_ s, r')
      | Option.none => Option.none
    | '[' :: r =>
      match skipJsonWs r with
      | ']' :: r' => some (.list_ [], r')
      | r' =>
        match parseJElems fuel r' with
        | some (es, r'') => some (.list_ es, r'')
        | Option.none => Option.none
    | '\x7b' :: r =>
      match skipJsonWs r with
      | '\x7d' :: r' => some (.dict_ [], r')
      | r' =>
        match parseJMembers fuel r' with
        | some (ms, r'') =>
          -- Python dict construction: insertion order, last duplicate wins
          some (.dict_ (ms.foldl (fun d p => PyVal.setKey p.1 p.2 d) []), r'')
        | Option.none => Option.none
    | c :: r =>
      if c == '-' || isDigitC c then parseJNum (c :: r) else Option.none
    | [] => Option.none

def parseJElems : Nat → List Char → Option (List PyVal × List Char)
  | 0, _ => Option.none
  | Nat.succ fuel, cs =>
    match parseJVal fuel cs with
    | Option.none => Option.none
    | some (v, r) =>
      match skipJsonWs r with
      | ',' :: r' =>
        match parseJElems fuel r' with
        | some (vs, r'') => some (v :: vs, r'')
        | Option.none => Option.none
      | ']' :: r' => some ([v], r')
      | _ => Option.none

def parseJMembers : Nat → List Char → Option (List (String × PyVal) × List Char)
  | 0, _ => Option.none
  | Nat.succ fuel, cs =>
    match skipJsonWs cs with
    | '"' :: r =>
      match parseJStr r.length [] r with
      | Option.none => Option.none
      | some (key, r1) =>
        match skipJsonWs r1 with
        | ':' :: r2 =>
          match parseJVal fuel r2 with
          | Option.none => Option.none
          | some (v, r3) =>
            match skipJsonWs r3 with
            | ',' :: r4 =>
              match parseJMembers fuel r4 with
              | some (ms, r5) => some ((key, v) :: ms, r5)
              | Option.none => Option.none
            | '\x7d' :: r4 => some ([(key, v)], r4)
            | _ => Option.none
        | _ => Option.none
    | _ => Option.none
end

/-- `json.loads(s)`: parse a complete document; anything left after the value
is the "Extra data" error.  The fuel `2 * length + 4` covers the parse: fuel
decreases at most twice between consecutive input-consuming steps. -/
def json_loads (s : String) : Option PyVal :=
  let cs := s.toList
  match parseJVal (2 * cs.length + 4) cs with
  | some (v, r) => if (skipJsonWs r).isEmpty then some v else Option.none
  | Option.none => Option.none

/-! ## `llm_processor.sanitize_json_response`

Each `re.sub` of the source is modelled by a left-to-right, non-overlapping
scan with the same matching semantics as the concrete pattern (all the
patterns involved are deterministic: their subparts range over disjoint
character classes, so regex backtracking never changes the match). -/

/-- A word character of the `[a-zA-Z0-9_]` class. -/
def isWordC (c : Char) : Bool :=
  isDigitC c || (65 ≤ c.toNat && c.toNat ≤ 90) || (97 ≤ c.toNat && c.toNat ≤ 122) || c == '_'

/-- `re.sub(r',\s*' + close, close, s)` for `close` one of `}` / `]`:
drops a comma standing (up to whitespace) before the closing bracket. -/
def subCommaClose (close : Char) : Nat → List Char → List Char
  | _, [] => []
  | 0, s => s -- unreachable: fuel covers the text length
  | Nat.succ fuel, c :: cs =>
    if c == ',' then
      let rest := cs.dropWhile isPyWs
      match rest with
      | d :: rest2 =>
        if d == close then close :: subCommaClose close fuel rest2
        else c :: subCommaClose close fuel cs
      | [] => c :: subCommaClose close fuel cs
    else c :: subCommaClose close fuel cs

/-- `re.sub(r'([{,])\s*([a-zA-Z0-9_]+)\s*:', r'\1"\2":', s)`: quote unquoted
object keys (dropping the whitespace around them, as the replacement does). -/
def quoteKeys : Nat → List Char → List Char
  | _, [] => []
  | 0, s => s -- unreachable: fuel covers the text length
  | Nat.succ fuel, c :: cs =>
    if c == '\x7b' || c == ',' then
      let after1 := cs.dropWhile isPyWs
      let word := after1.takeWhile isWordC
      let after2 := (after1.dropWhile isWordC).dropWhile isPyWs
      match word, after2 with
      | _ :: _, ':' :: rest =>
        c :: '"' :: (word ++ '"' :: ':' :: quoteKeys fuel rest)
      | _, _ => c :: quoteKeys fuel cs
    else c :: quoteKeys fuel cs

/-- `re.sub(r':\s*True\b', r':true', s)` (and the `False` analogue):
`lit` is the capitalised literal, `target` the full replacement text. -/
def subBoolAfterColon (lit target : List Char) : Nat → List Char → List Char
  | _, [] => []
  | 0, s => s -- unreachable: fuel covers the text length
  | Nat.succ fuel, c :: cs =>
    if c == ':' then
      let after1 := cs.dropWhile isPyWs
      if startsWithL lit after1 then
        let rest := after1.drop lit.length
        match rest with
        | [] => target ++ subBoolAfterColon lit target fuel []
        | d :: _ =>
          if isWordC d then c :: subBoolAfterColon lit target fuel cs
          else target ++ subBoolAfterColon lit target fuel rest
      else c :: subBoolAfterColon lit target fuel cs
    else c :: subBoolAfterColon lit target fuel cs

/-- `llm_processor.sanitize_json_response(response)`: strip control
characters, drop trailing commas, quote unquoted keys, lowercase Python
boolean literals, and convert single to double quotes when the text has
single quotes but no double quotes. -/
def sanitize_json_response (response : String) : String :=
  if response = "" then response -- `if not response: return response`
  else
    let r := response.toList
    -- re.sub(r'[\x00-\x1F\x7F]', '', response)
    let r := r.filter (fun c => !(c.toNat ≤ 0x1F || c.toNat == 0x7F))
    let r := subCommaClose '\x7d' r.length r
    let r := subCommaClose ']' r.length r
    let r := quoteKeys r.length r
    let r := subBoolAfterColon "True".toList ":true".toList r.length r
    let r := subBoolAfterColon "False".toList ":false".toList r.length r
    let r :=
      if (r.contains '\'') && !(r.contains '"') then
        r.map (fun c => if c == '\'' then '"' else c)
      else r
    String.mk r

/-! ## `llm_processor.parse_llm_response` -/

/-- Characters up to and including the first `}`, if any. -/
def takeUntilClose : List Char → Option (List Char)
  | [] => Option.none
  | c :: cs =>
    if c == '\x7d' then some [c]
    else (takeUntilClose cs).map (c :: ·)

/-- `re.search(r'(\{.*?\})', s, re.DOTALL)`: the span from the leftmost `{`
that is followed by a `}` up to the nearest such `}` (lazy match, crossing
newlines). -/
def find_json_object_aux : List Char → Option (List Char)
  | [] => Option.none
  | c :: cs =>
    if c == '\x7b' then
      match takeUntilClose cs with
      | some t => some (c :: t)
      | Option.none => find_json_object_aux cs
    else find_json_object_aux cs

def find_json_object (s : String) : Option String :=
  (find_json_object_aux s.toList).map String.mk

/-- Backtracking tail of `find_json_events_object`: from a fixed opening brace,
the lazy `[\s\S]*?"events"[\s\S]*?\}` — the earliest `"events"` occurrence
that still has a `}` after it. -/
def findEventsThenClose (acc : List Char) : List Char → Option (List Char)
  | [] => Option.none
  | c :: cs =>
    if startsWithL "\"events\"".toList (c :: cs) then
      let lit := "\"events\"".toList
      match takeUntilClose ((c :: cs).drop lit.length) with
      | some t => some (acc.reverse ++ lit ++ t)
      | Option.none => findEventsThenClose (c :: acc) cs
    else findEventsThenClose (c :: acc) cs

/-- `re.search(r'(\{[\s\S]*?"events"[\s\S]*?\})', s, re.DOTALL)`. -/
def find_json_events_object_aux : List Char → Option (List Char)
  | [] => Option.none
  | c :: cs =>
    if c == '\x7b' then
      match findEventsThenClose [] cs with
      | some t => some (c :: t)
      | Option.none => find_json_events_object_aux cs
    else find_json_events_object_aux cs

def find_json_events_object (s : String) : Option String :=
  (find_json_events_object_aux s.toList).map String.mk

/-- `re.findall(r'"[^"]*$', s)`: the single possible match — the last `"`
together with everything after it (present iff the text contains a quote). -/
def lastQuoteSuffix (s : List Char) : Option (List Char) :=
  let revTail := s.reverse.takeWhile (· ≠ '"')
  if revTail.length = s.length then Option.none
  else some ('"' :: revTail.reverse)

/-- `re.search(r'"date"\s*:\s*"([^"]+)"', s)`: the quoted value of the first
well-formed `"date"` field. -/
def findDateField : List Char → Option String
  | [] => Option.none
  | c :: cs =>
    if startsWithL "\"date\"".toList (c :: cs) then
      match ((c :: cs).drop 6).dropWhile isPyWs with
      | ':' :: r3 =>
        match r3.dropWhile isPyWs with
        | '"' :: r5 =>
          let content := r5.takeWhile (· ≠ '"')
          match content, r5.dropWhile (· ≠ '"') with
          | _ :: _, '"' :: _ => some (String.mk content)
          | _, _ => findDateField cs
        | _ => findDateField cs
      | _ => findDateField cs
    else findDateField cs

/-- `re.search('"<cat>"\\s*:\\s*\\[(.*?)\\]', s, re.DOTALL)`: the (lazy)
bracketed span of a category's array. -/
def findCategoryArray (cat : List Char) : List Char → Option (List Char)
  | [] => Option.none
  | c :: cs =>
    let lit := '"' :: (cat ++ ['"'])
    if startsWithL lit (c :: cs) then
      match ((c :: cs).drop lit.length).dropWhile isPyWs with
      | ':' :: r3 =>
        match r3.dropWhile isPyWs with
        | '[' :: r5 =>
          if r5.any (· == ']') then some (r5.takeWhile (· ≠ ']'))
          else findCategoryArray cat cs
        | _ => findCategoryArray cat cs
      | _ => findCategoryArray cat cs
    else findCategoryArray cat cs

/-- `re.finditer(r'\{(.*?)\}', content, re.DOTALL)`: the group contents of
successive non-overlapping lazy brace spans. -/
def finditerBraceSpans : Nat → List Char → List (List Char)
  | _, [] => []
  | 0, _ => [] -- unreachable: fuel covers the text length
  | Nat.succ fuel, c :: cs =>
    if c == '\x7b' then
      match takeUntilClose cs with
      | some t => t.dropLast :: finditerBraceSpans fuel (cs.drop t.length)
      | Option.none => []
    else finditerBraceSpans fuel cs

/-- The error-shaped DateRecord `parse_llm_response` builds for a `None`/empty
reply and inside its exception handler. -/
def fallbackRecord (S : Sections) (err : String) : PyVal :=
  .dict_ [("date", .str_ S.date), ("url", .str_ S.url),
          ("events", emptyEvents), ("error", .str_ err)]

/-- The "third attempt" of `parse_llm_response`: best-effort partial
extraction of the date and per-category event objects by regex. -/
def salvageData (json_str : List Char) (S : Sections) : PyVal :=
  let date := match findDateField json_str with
    | some d => d
    | Option.none => S.date
  let evCat := fun (cat : String) =>
    match findCategoryArray cat.toList json_str with
    | Option.none => []
    | some content0 =>
      let content := stripL content0
      if content.isEmpty then []
      else (finditerBraceSpans content.length content).filterMap
        (fun g => json_loads (String.mk ('\x7b' :: (g ++ ['\x7d']))))
  .dict_ [("date", .str_ date),
          ("events", .dict_ [("cme", .list_ (evCat "cme")),
                             ("sunspot", .list_ (evCat "sunspot")),
                             ("flares", .list_ (evCat "flares")),
                             ("coronal_holes", .list_ (evCat "coronal_holes"))])]

/-- The `for category in [...]` canonicalization loop (lines 547-549 of
`llm_processor.py`): ensure each missing category key maps to an empty list.
Raises (as the source would) when the events value does not support `in` or
item assignment. -/
def ensureEventCategories : List String → List (String × PyVal) →
    Except String (List (String × PyVal))
  | [], d => .ok d
  | cat :: rest, d =>
    match PyVal.lookup "events" d with
    | Option.none => .error "KeyError" -- unreachable: "events" was ensured
    | some ev =>
      match PyVal.contains ev cat with
      | .error e => .error e
      | .ok true => ensureEventCategories rest d
      | .ok false =>
        match ev with
        | .dict_ em =>
          ensureEventCategories rest
            (PyVal.setKey "events" (.dict_ (PyVal.setKey cat (.list_ []) em)) d)
        | _ => .error "TypeError" -- item assignment on a non-dict

/-- Lines 536-551 of `parse_llm_response`: attach the Section Bundle's source
reference, back-fill a missing date, ensure the events mapping and the four
category keys.  A non-dict parse result or a non-indexable events value would
raise in the source; the surrounding `except` then returns the error-shaped
fallback record. -/
def finalizeParsedData (data : PyVal) (S : Sections) : PyVal :=
  match data with
  | .dict_ d0 =>
    -- data["url"] = sections.get("url")
    let d1 := PyVal.setKey "url" (.str_ S.url) d0
    -- if "date" not in data: data["date"] = sections.get("date")
    let d2 := if (PyVal.lookup "date" d1).isNone
      then PyVal.setKey "date" (.str_ S.date) d1 else d1
    -- if "events" not in data: data["events"] = {}
    let d3 := if (PyVal.lookup "events" d2).isNone
      then PyVal.setKey "events" (.dict_ []) d2 else d2
    match ensureEventCategories categories d3 with
    | .ok d4 => .dict_ d4
    | .error e => fallbackRecord S e
  | _ => fallbackRecord S "TypeError" -- data["url"] = ... on a non-dict

/-- `llm_processor.parse_llm_response(response, sections)`: code-fence
stripping, object-span search, sanitizing, strict parse, brace balancing and
unterminated-string repair, per-category salvage, canonicalization — never
raising to the caller. -/
def parse_llm_response (response : Option String) (S : Sections) : PyVal :=
  match response with
  | Option.none => fallbackRecord S "LLM returned None or empty response"
  | some resp =>
    if (stripL resp.toList).isEmpty then
      fallbackRecord S "LLM returned None or empty response"
    else
      -- extract a fenced code block if present
      let json_str : List Char :=
        if containsSub "```json".toList resp.toList then
          stripL ((splitOnSub "```".toList
            ((splitOnSub "```json".toList resp.toList).getD 1 [])).getD 0 [])
        else if containsSub "```".toList resp.toList then
          let parts := splitOnSub "```".toList resp.toList
          if 3 ≤ parts.length then stripL (parts.getD 1 []) else resp.toList
        else resp.toList
      -- if the remaining text does not start with '{', search the response
      let json_str : List Char :=
        if !(startsWithL ['\x7b'] (stripL json_str)) then
          match find_json_object resp with
          | some m => m.toList
          | Option.none =>
            match find_json_events_object resp with
            | some m => m.toList
            | Option.none => json_str
        else json_str
      let json_str : List Char := (sanitize_json_response (String.mk json_str)).toList
      match json_loads (String.mk json_str) with
      | some data => finalizeParsedData data S
      | Option.none =>
        -- second attempt: append missing closing braces, close the last string
        let json_str2 : List Char :=
          if countChar '\x7d' json_str < countChar '\x7b' json_str then
            json_str ++ List.replicate (countChar '\x7b' json_str - countChar '\x7d' json_str) '\x7d'
          else json_str
        let json_str3 : List Char :=
          match lastQuoteSuffix json_str2 with
          | some m => replaceSub m (m ++ ['"']) json_str2
          | Option.none => json_str2
        match json_loads (String.mk json_str3) with
        | some data => finalizeParsedData data S
        | Option.none => finalizeParsedData (salvageData json_str3 S) S

/-! ## `json.dumps(..., indent=2)` (used when building the analysis prompt) -/

/-- Hex digit for `\uXXXX` escapes (lowercase, as CPython emits). -/
def hexDigitL (n : Nat) : Char :=
  if n < 10 then Char.ofNat (48 + n) else Char.ofNat (97 + (n - 10))

def u4 (n : Nat) : List Char :=
  ['\\', 'u', hexDigitL (n / 4096 % 16), hexDigitL (n / 256 % 16),
   hexDigitL (n / 16 % 16), hexDigitL (n % 16)]

/-- One character of a dumped JSON string (`ensure_ascii=True` default):
quote/backslash escapes, short escapes for the common control characters,
`\uXXXX` for other control or non-ASCII characters (astral characters become
surrogate pairs). -/
def pyJsonEscapeChar (c : Char) : List Char :=
  if c == '"' then ['\\', '"']
  else if c == '\\' then ['\\', '\\']
  else if c == '\n' then ['\\', 'n']
  else if c == '\r' then ['\\', 'r']
  else if c == '\t' then ['\\', 't']
  else if c.toNat == 8 then ['\\', 'b']
  else if c.toNat == 12 then ['\\', 'f']
  else if c.toNat < 0x20 then u4 c.toNat
  else if c.toNat < 0x7F then [c]
  else if c.toNat ≤ 0xFFFF then u4 c.toNat
  else
    let n := c.toNat - 0x10000
    u4 (0xD800 + n / 0x400) ++ u4 (0xDC00 + n % 0x400)

def pyJsonQuote (s : String) : String :=
  String.mk ('"' :: (s.toList.map pyJsonEscapeChar).flatten ++ ['"'])

def indentSpaces (n : Nat) : String := String.mk (List.replicate n ' ')

mutual
/-- `json.dumps(v, indent=2)` at the given current indentation. -/
def pyJsonDumps (ind : Nat) : PyVal → String
  | .none_ => "null"
  | .bool_ b => if b then "true" else "false"
  | .int_ i => toString i
  | .float_ r => r
  | .str_ s => pyJsonQuote s
  | .list_ [] => "[]"
  | .list_ (x :: xs) =>
    "[\n" ++ String.intercalate ",\n" (pyJsonDumpsList (ind + 2) (x :: xs))
      ++ "\n" ++ indentSpaces ind ++ "]"
  | .dict_ [] => "\x7b\x7d"
  | .dict_ (p :: ps) =>
    "\x7b\n" ++ String.intercalate ",\n" (pyJsonDumpsDict (ind + 2) (p :: ps))
      ++ "\n" ++ indentSpaces ind ++ "\x7d"

def pyJsonDumpsList (ind : Nat) : List PyVal → List String
  | [] => []
  | v :: vs => (indentSpaces ind ++ pyJsonDumps ind v) :: pyJsonDumpsList ind vs

def pyJsonDumpsDict (ind : Nat) : List (String × PyVal) → List String
  | [] => []
  | (k, v) :: ps =>
    (indentSpaces ind ++ pyJsonQuote k ++ ": " ++ pyJsonDumps ind v)
      :: pyJsonDumpsDict ind ps
end

/-! ## `llm_processor.create_analysis_prompt` and `call_llm` -/

/-- `llm_processor.create_analysis_prompt(sections)`: the full f-string built
by the source (with the doubled braces of the f-string rendered once). -/
def create_analysis_prompt (S : Sections) : String :=
  let date := S.date -- sections.get('date', 'unknown date'): always present here
  "You are a space weather expert analyzing data from spaceweather.com for " ++ date ++ ".\n\n"
  ++ "I will provide you with text snippets from the website, and I need you to identify and categorize space weather events into the following categories:\n\n"
  ++ "1. Coronal mass ejection (CME) - Including filament eruptions, their size, and whether they are Earth-facing or not\n"
  ++ "2. Sunspot activity - Including expansion, creation, extreme maximum or extreme minimum\n"
  ++ "3. Solar flares - Including C, M, and X class flares\n"
  ++ "4. Coronal holes - Including coronal holes facing Earth or high-speed solar winds\n\n"
  ++ "For each event you identify, please provide the following structured information:\n"
  ++ "1. Tone of the event: \"Normal\" or \"Significant\" (significant means it could have notable effects on Earth or represents an unusual/extreme event)\n"
  ++ "2. Date of the event (when it was observed)\n"
  ++ "3. Predicted arrival time at Earth (if mentioned)\n"
  ++ "4. Detailed description of the event (you can include basic HTML formatting like <p>, <strong>, <em>, <ul>, <li> tags in the detail field)\n"
  ++ "5. Any image or link associated with this event (if available in the provided data)\n\n"
  ++ "Here are the text snippets from the website:\n\n"
  ++ "FULL TEXT:\n" ++ S.full_text ++ "\n\n"
  ++ "CME RELATED:\n" ++ pyJsonDumps 0 (.list_ (S.cme.map PyVal.str_)) ++ "\n\n"
  ++ "SUNSPOT RELATED:\n" ++ pyJsonDumps 0 (.list_ (S.sunspot.map PyVal.str_)) ++ "\n\n"
  ++ "SOLAR FLARES RELATED:\n" ++ pyJsonDumps 0 (.list_ (S.flares.map PyVal.str_)) ++ "\n\n"
  ++ "CORONAL HOLES RELATED:\n" ++ pyJsonDumps 0 (.list_ (S.coronal_holes.map PyVal.str_)) ++ "\n\n"
  ++ "IMAGES:\n" ++ pyJsonDumps 0 (.list_ S.images) ++ "\n\n"
  ++ "Please respond with a JSON structure that categorizes all the events you can identify from this data. Use the following format:\n\n"
  ++ "```json\n"
  ++ "\x7b\n  \"date\": \"" ++ date ++ "\",\n  \"events\": \x7b\n    \"cme\": [\n      \x7b\n"
  ++ "        \"tone\": \"Normal/Significant\",\n        \"date\": \"" ++ date ++ "\",\n"
  ++ "        \"predicted_arrival\": null,\n        \"detail\": \"Detailed description\",\n"
  ++ "        \"image_url\": null\n      \x7d\n    ],\n    \"sunspot\": [...],\n"
  ++ "    \"flares\": [...],\n    \"coronal_holes\": [...]\n  \x7d\n\x7d\n"
  ++ "```\n\n"
  ++ "IMPORTANT GUIDELINES:\n"
  ++ "1. Only include events that are explicitly mentioned in the provided text.\n"
  ++ "2. Keep descriptions concise and focused on key information.\n"
  ++ "3. If no events are found for a category, return an empty array for that category.\n"
  ++ "4. Ensure your response is valid JSON with no trailing commas or syntax errors.\n"
  ++ "5. Keep your total response under 2000 tokens to avoid truncation.\n"
  ++ "6. If you can't find any specific events in the text, please still return a valid JSON structure with the date and empty arrays for each category.\n"
  ++ "7. DO NOT return null or an empty response.\n"
  ++ "8. DO NOT include any explanatory text outside the JSON structure.\n"

/-- The LLM provider selected by the ambient configuration. -/
inductive Provider where
  | grok : Provider
  | openrouter : Provider

/-- The ambient LLM configuration (`get_llm_config`), reduced to the fields
`call_llm`'s control flow depends on. -/
structure LLMConfig where
  provider : Provider
  apiKeyPresent : Bool

/-- One scripted outcome of the completion API call: a transport exception, or
a completion with its content and (for Grok) optional reasoning content. -/
inductive CallOutcome where
  | exn : CallOutcome
  | ok : String → Option String → CallOutcome

/-- The `else` arm of `call_llm`'s empty-or-braceless-content branch: for the
Grok provider with non-empty content, try `re.search(r'(\{[\s\S]*?\})', ...)`
on the content; otherwise give up. -/
def call_llm_contentFallback (cfg : LLMConfig) (content : String)
    (rest : List CallOutcome) : Option String × List CallOutcome × Nat :=
  match cfg.provider with
  | .grok =>
    if content ≠ "" then
      match find_json_object content with
      | some m => (some m, rest, 1)
      | Option.none => (Option.none, rest, 1)
    else (Option.none, rest, 1)
  | .openrouter => (Option.none, rest, 1)

/-- The reasoning content is only read for the Grok provider
(`if provider == "grok" and hasattr(..., 'reasoning_content')`). -/
def grokReasoning (cfg : LLMConfig) (r : Option String) : Option String :=
  match cfg.provider with
  | .grok => r
  | .openrouter => Option.none

/-- `llm_processor.call_llm(prompt)`: skips the API entirely on sentinel
prompts or a missing key; otherwise consumes one scripted outcome and applies
the source's content/reasoning/JSON-structure fallbacks.  Returns the reply
(`None` on failure), the remaining script, and the number of API calls made
(0 or 1). -/
def call_llm (cfg : LLMConfig) (prompt : String) (oracle : List CallOutcome) :
    Option String × List CallOutcome × Nat :=
  -- if "No data available" in prompt or "No full text available" in prompt: return None
  if containsSub "No data available".toList prompt.toList
      || containsSub "No full text available".toList prompt.toList then
    (Option.none, oracle, 0)
  else if !cfg.apiKeyPresent then (Option.none, oracle, 0)
  else
    match oracle with
    | [] => (Option.none, oracle, 0) -- no scripted completion: modelled as failure
    | o :: rest =>
      match o with
      | .exn => (Option.none, rest, 1) -- `except Exception: return None`
      | .ok content reasoning0 =>
        if content = ""
            || !(containsSub ['\x7b'] content.toList && containsSub ['\x7d'] content.toList) then
          match grokReasoning cfg reasoning0 with
          | some rs =>
            if rs ≠ "" && containsSub ['\x7b'] rs.toList && containsSub ['\x7d'] rs.toList then
              (some rs, rest, 1) -- content = reasoning; the recheck passes
            else call_llm_contentFallback cfg content rest
          | Option.none => call_llm_contentFallback cfg content rest
        else (some content, rest, 1)

/-! ## `llm_processor.analyze_spaceweather_data` -/

/-- The error record `analyze_spaceweather_data` builds when every attempt
failed (message text abbreviated: no claim reads it). -/
def analyzeFailRecord (S : Sections) : PyVal :=
  .dict_ [("date", .str_ S.date), ("url", .str_ S.url),
          ("events", emptyEvents),
          ("error", .str_ "Error analyzing data after 3 attempts")]

/-- The `while retry_count < max_retries` loop of `analyze_spaceweather_data`
(inner `max_retries = 3`); the fuel is `3 - retry_count`, so the
`retry_count == max_retries - 1` check becomes `fuel = 1`.  Returns the
structured data, the remaining completion script, and the number of API calls
made. -/
def analyze_loop (cfg : LLMConfig) (prompt : String) (S : Sections) :
    Nat → List CallOutcome → Nat → PyVal × List CallOutcome × Nat
  | 0, oracle, calls => (analyzeFailRecord S, oracle, calls)
  | Nat.succ fuel, oracle, calls =>
    let oracle' := (call_llm cfg prompt oracle).2.1
    let calls' := calls + (call_llm cfg prompt oracle).2.2
    match (call_llm cfg prompt oracle).1 with
    | Option.none => analyze_loop cfg prompt S fuel oracle' calls'
    | some r =>
      let structured := parse_llm_response (some r) S
      -- if structured_data and "events" in structured_data:
      match PyVal.contains structured "events" with
      | .error _ => analyze_loop cfg prompt S fuel oracle' calls' -- except → retry
      | .ok hasEv =>
        if structured.truthy && hasEv then
          match structured.index "events" with
          | .error _ => analyze_loop cfg prompt S fuel oracle' calls'
          | .ok ev =>
            match totalEvents ev with
            | .error _ => analyze_loop cfg prompt S fuel oracle' calls' -- except → retry
            | .ok total =>
              -- total_events > 0 or retry_count == max_retries - 1 (last attempt)
              if 0 < total || fuel = 0 then (structured, oracle', calls')
              else analyze_loop cfg prompt S fuel oracle' calls'
        else analyze_loop cfg prompt S fuel oracle' calls' -- invalid structure → retry

/-- The record returned for falsy `sections` input. -/
def noSectionsRecord : PyVal :=
  .dict_ [("date", .str_ "unknown"), ("url", .str_ "unknown"),
          ("events", emptyEvents), ("error", .str_ "No sections data provided")]

/-- `llm_processor.analyze_spaceweather_data(sections)`. -/
def analyze_spaceweather_data (cfg : LLMConfig) (sections : Option Sections)
    (oracle : List CallOutcome) : PyVal × List CallOutcome × Nat :=
  match sections with
  | Option.none => (noSectionsRecord, oracle, 0)
  | some S => analyze_loop cfg (create_analysis_prompt S) S 3 oracle 0

/-! ## `db_manager.load_data_from_db` -/

/-- The `dates` row returned by `SELECT * FROM dates WHERE date = ?` (the
`date` column equals the queried string by the WHERE clause, so it is not
repeated here; `url` and `error` are nullable TEXT columns). -/
structure DbDateRow where
  url : PyVal
  error : PyVal

/-- One `events` row of the queried date, in the `ORDER BY category,
is_significant DESC` order of the query. -/
structure DbEventRow where
  category : String
  tone : PyVal
  event_date : PyVal
  predicted_arrival : PyVal
  detail : PyVal
  image_url : PyVal

def eventDictOfRow (r : DbEventRow) : PyVal :=
  .dict_ [("tone", r.tone), ("date", r.event_date),
          ("predicted_arrival", r.predicted_arrival),
          ("detail", r.detail), ("image_url", r.image_url)]

/-- `result["events"][category].append(event_data)` over the queried rows: a
category outside the four initialised keys raises KeyError, which the broad
`except` of `load_data_from_db` turns into `None`. -/
def groupDbEvents : List DbEventRow → List (String × PyVal) →
    Except String (List (String × PyVal))
  | [], em => .ok em
  | r :: rest, em =>
    match PyVal.lookup r.category em with
    | some (.list_ l) =>
      groupDbEvents rest (PyVal.setKey r.category (.list_ (l ++ [eventDictOfRow r])) em)
    | some _ => .error "AttributeError"
    | Option.none => .error "KeyError"

/-- `db_manager.load_data_from_db(date_str)` over the queried rows. -/
def load_data_from_db (date_str : String) (row : Option DbDateRow)
    (evRows : List DbEventRow) : Option PyVal :=
  match row with
  | Option.none => Option.none
  | some dr =>
    match groupDbEvents evRows
        [("cme", .list_ []), ("sunspot", .list_ []),
         ("flares", .list_ []), ("coronal_holes", .list_ [])] with
    | .error _ => Option.none -- `except Exception: ... return None`
    | .ok em =>
      some (.dict_ ([("date", .str_ date_str), ("url", dr.url), ("events", .dict_ em)]
        ++ (if dr.error.truthy then [("error", dr.error)] else [])))

/-! ## `data_manager`: Supabase check and the per-date orchestration -/

/-- The oracle environment of one `process_date` call: everything the
collaborators (SQLite, JSON snapshot files, Supabase, the scraper, the LLM)
would return during the call. -/
structure PDEnv where
  dbRow : Option DbDateRow
  dbEvents : List DbEventRow
  jsonFile : Option PyVal
  supabaseAvailable : Bool
  remote : Option PyVal
  scraped : Option ScrapedData
  llm : List CallOutcome
  cfg : LLMConfig

/-- Python truthiness of an optional value (`None` is falsy). -/
def optFalsy : Option PyVal → Bool
  | Option.none => true
  | some v => !v.truthy

/-- Outcome of `check_supabase_for_data`: the returned record, the number of
`get_date` consultations performed, and the records imported into the local
store. -/
structure CSOut where
  result : Option PyVal
  lookups : Nat
  imported : List PyVal

/-- `data_manager.check_supabase_for_data(date_str)`. -/
def check_supabase_for_data (env : PDEnv) : CSOut :=
  if !env.supabaseAvailable then ⟨Option.none, 0, []⟩
  else
    match env.remote with
    | Option.none => ⟨Option.none, 1, []⟩
    | some data =>
      if !data.truthy then ⟨Option.none, 1, []⟩
      else
        match (do let ev ← data.get "events" (.dict_ []); totalEvents ev) with
        | .error _ => ⟨Option.none, 1, []⟩ -- `except Exception: ... return None`
        | .ok total =>
          match PyVal.contains data "error" with
          | .error _ => ⟨Option.none, 1, []⟩
          | .ok hasErr =>
            if 0 < total && !hasErr then ⟨some data, 1, [data]⟩ -- save_data_to_db(data)
            else ⟨Option.none, 1, []⟩

/-- Does the record carry an `"error"` key (`"error" in data`)?  Defined for
dicts; other receivers are handled by the callers' exception paths. -/
def hasErrorKey (v : PyVal) : Bool :=
  match v with
  | .dict_ d => (PyVal.lookup "error" d).isSome
  | _ => false

/-- The local Primary/Snapshot read of `process_date` (lines 89-97): the
structured store first, the JSON snapshot as fallback (found snapshots are
imported into the structured store, a write this value model does not need). -/
def local_existing (env : PDEnv) (date_str : String) : Option PyVal :=
  let e0 := load_data_from_db date_str env.dbRow env.dbEvents
  if optFalsy e0 then env.jsonFile else e0

/-- The Section Bundle `process_date` hands to the Extraction Normalizer:
extraction of the scraped data, or of the placeholder structure when the
scraper returned nothing. -/
def sectionsOf (env : PDEnv) (date_str : String) : Sections :=
  match extract_spaceweather_sections
      (some (match env.scraped with
             | some sd => sd
             | Option.none => placeholderScraped date_str)) with
  | some S => S
  | Option.none => ⟨[], [], [], [], "", "", "", []⟩ -- unreachable

/-- Result of one `process_date` call: the returned record (or the uncaught
Python exception), with the observable effect counters the claims speak
about. -/
structure PDOut where
  result : Except String PyVal
  remoteChecks : Nat -- invocations of check_supabase_for_data
  supabaseLookups : Nat -- actual get_date consultations
  importedFromRemote : List PyVal
  llmCalls : Nat
  analyzeCalls : Nat

/-- The `while retries <= max_retries` loop of `process_date` (lines
154-179), fuel-structural on the remaining attempts: returns the final
`analyzed_data` (`.error` for the uncaught TypeError/AttributeError the
source would raise when a malformed events value reaches the
`total_events` computation), the remaining completion script and the
accumulated call counts. -/
def processAnalyzeLoop (cfg : LLMConfig) (S : Sections) :
    Nat → PyVal → List CallOutcome → Nat → Nat →
    Except String PyVal × List CallOutcome × Nat × Nat
  | 0, last, oracle, lc, ac => (.ok last, oracle, lc, ac)
  | Nat.succ fuel, _, oracle, lc, ac =>
    let analyzed := (analyze_spaceweather_data cfg (some S) oracle).1
    let oracle' := (analyze_spaceweather_data cfg (some S) oracle).2.1
    let lc' := lc + (analyze_spaceweather_data cfg (some S) oracle).2.2
    let ac' := ac + 1
    -- if analyzed_data and analyzed_data.get("events") and "error" not in analyzed_data:
    match analyzed.get "events" .none_ with
    | .error e => (.error e, oracle', lc', ac')
    | .ok evVal =>
      if analyzed.truthy && evVal.truthy && !hasErrorKey analyzed then
        match totalEvents evVal with
        | .error e => (.error e, oracle', lc', ac') -- uncaught in the source
        | .ok total =>
          if 0 < total then (.ok analyzed, oracle', lc', ac') -- break
          else processAnalyzeLoop cfg S fuel analyzed oracle' lc' ac'
      else processAnalyzeLoop cfg S fuel analyzed oracle' lc' ac'

/-- `data_manager.process_date(date_str, force_refresh, max_retries)`. -/
def process_date (env : PDEnv) (date_str : String) (force_refresh : Bool)
    (max_retries : Nat) : PDOut :=
  -- existing_data = load_data_from_db(date_str), with JSON-snapshot fallback
  let existing1 := local_existing env date_str
  -- if still no data (and not forcing): check Supabase
  let cs1 : CSOut :=
    if optFalsy existing1 && !force_refresh then check_supabase_for_data env
    else ⟨Option.none, 0, []⟩
  let checks1 : Nat := if optFalsy existing1 && !force_refresh then 1 else 0
  let existing2 := if optFalsy existing1 && !force_refresh then cs1.result else existing1
  let cached : Option PDOut :=
    match existing2 with
    | some rec =>
      if rec.truthy && !force_refresh then
        some (
          match (do let ev ← rec.get "events" (.dict_ []); totalEvents ev) with
          | .error e => -- uncaught: a malformed cached record raises out of process_date
            ⟨.error e, checks1, cs1.lookups, cs1.imported, 0, 0⟩
          | .ok total =>
            if 0 < total && !hasErrorKey rec then
              ⟨.ok rec, checks1, cs1.lookups, cs1.imported, 0, 0⟩
            else
              -- data exists but is composite-empty: check Supabase before returning
              let cs2 := check_supabase_for_data env
              let preferred : Option PyVal :=
                match cs2.result with
                | some sd =>
                  match (do let ev ← sd.get "events" (.dict_ []); totalEvents ev) with
                  | .error _ => Option.none -- unreachable: validated in check_supabase
                  | .ok total2 =>
                    if 0 < total2 && !hasErrorKey sd then some sd else Option.none
                | Option.none => Option.none
              match preferred with
              | some sd => ⟨.ok sd, checks1 + 1, cs1.lookups + cs2.lookups,
                  cs1.imported ++ cs2.imported, 0, 0⟩
              | Option.none => ⟨.ok rec, checks1 + 1, cs1.lookups + cs2.lookups,
                  cs1.imported ++ cs2.imported, 0, 0⟩)
      else Option.none
    | Option.none => Option.none
  match cached with
  | some out => out
  | Option.none =>
    -- scrape (or substitute the minimal placeholder), extract, analyze with retries
    let scraped_data :=
      match env.scraped with
      | some sd => sd
      | Option.none => placeholderScraped date_str
    let S := sectionsOf env date_str
    match processAnalyzeLoop env.cfg S (max_retries + 1) noSectionsRecord env.llm 0 0 with
    | (.error e, _, lc, ac) => ⟨.error e, checks1, cs1.lookups, cs1.imported, lc, ac⟩
    | (.ok analyzed, _, lc, ac) =>
      -- if the analysis failed or returned an empty structure, build the basic record
      let evTruthy :=
        match analyzed.get "events" .none_ with
        | .ok v => v.truthy
        | .error _ => false -- unreachable: analyzed is always a dict
      let final :=
        if !analyzed.truthy || !evTruthy || hasErrorKey analyzed then
          PyVal.dict_ [("date", .str_ date_str), ("url", .str_ scraped_data.url),
            ("events", emptyEvents),
            ("error",
              if analyzed.truthy then
                match analyzed.get "error" (.str_ "LLM analysis failed") with
                | .ok v => v
                | .error _ => .str_ "LLM analysis failed"
              else .str_ "LLM analysis failed")]
        else analyzed
      -- save_data_to_db(final); save_data(final); best-effort Supabase sync
      ⟨.ok final, checks1, cs1.lookups, cs1.imported, lc, ac⟩

/-- `data_manager.process_date_range(start_date, end_date, days,
force_refresh)`: the Supabase bulk probe (lines 266-289) only writes into the
local store, which this oracle model snapshots per date in `envs`; the
returned list is one `process_date` result per enumerated date.  `dateStr`
renders a day number as its `YYYY-MM-DD` date string (a strictly monotone
bijection). -/
def process_date_range (envs : Int → PDEnv) (dateStr : Int → String)
    (start_date end_date : Option Int) (days : Nat) (force_refresh : Bool)
    (now : Int) : List (Except String PyVal) :=
  (process_date_range_dates start_date end_date days now).map
    (fun d => (process_date (envs d) (dateStr d) force_refresh 2).result)

/-! ## Retry accounting (C4) -/

theorem call_llm_contentFallback_calls (cfg : LLMConfig) (c : String)
    (rest : List CallOutcome) : (call_llm_contentFallback cfg c rest).2.2 = 1 := by
  unfold call_llm_contentFallback
  repeat' split
  all_goals simp

theorem call_llm_calls_le_one (cfg : LLMConfig) (p : String) (o : List CallOutcome) :
    (call_llm cfg p o).2.2 ≤ 1 := by
  unfold call_llm
  repeat' split
  all_goals simp [call_llm_contentFallback_calls]

theorem analyze_loop_calls_le (cfg : LLMConfig) (p : String) (S : Sections) :
    ∀ (fuel : Nat) (oracle : List CallOutcome) (calls : Nat),
      (analyze_loop cfg p S fuel oracle calls).2.2 ≤ calls + fuel := by
  intro fuel
  induction fuel with
  | zero => intro oracle calls; simp [analyze_loop]
  | succ fuel ih =>
    intro oracle calls
    have hc := call_llm_calls_le_one cfg p oracle
    simp only [analyze_loop]
    split
    · have := ih (call_llm cfg p oracle).2.1 (calls + (call_llm cfg p oracle).2.2)
      omega
    · split
      · have := ih (call_llm cfg p oracle).2.1 (calls + (call_llm cfg p oracle).2.2)
        omega
      · split
        · split
          · have := ih (call_llm cfg p oracle).2.1 (calls + (call_llm cfg p oracle).2.2)
            omega
          · split
            · have := ih (call_llm cfg p oracle).2.1 (calls + (call_llm cfg p oracle).2.2)
              omega
            · split
              · simp
                omega
              · have := ih (call_llm cfg p oracle).2.1 (calls + (call_llm cfg p oracle).2.2)
                omega
        · have := ih (call_llm cfg p oracle).2.1 (calls + (call_llm cfg p oracle).2.2)
          omega

theorem analyze_spaceweather_data_calls_le (cfg : LLMConfig)
    (sections : Option Sections) (oracle : List CallOutcome) :
    (analyze_spaceweather_data cfg sections oracle).2.2 ≤ 3 := by
  unfold analyze_spaceweather_data
  cases sections with
  | none => simp
  | some S => simpa using analyze_loop_calls_le cfg (create_analysis_prompt S) S 3 oracle 0

theorem processAnalyzeLoop_zero (cfg : LLMConfig) (S : Sections) (last : PyVal)
    (oracle : List CallOutcome) (lc ac : Nat) :
    processAnalyzeLoop cfg S 0 last oracle lc ac = (.ok last, oracle, lc, ac) := rfl

attribute [local irreducible] analyze_spaceweather_data in
theorem processAnalyzeLoop_succ (cfg : LLMConfig) (S : Sections) (fuel : Nat) (last : PyVal)
    (oracle : List CallOutcome) (lc ac : Nat) :
    processAnalyzeLoop cfg S (fuel + 1) last oracle lc ac =
      (let analyzed := (analyze_spaceweather_data cfg (some S) oracle).1
       let oracle' := (analyze_spaceweather_data cfg (some S) oracle).2.1
       let lc' := lc + (analyze_spaceweather_data cfg (some S) oracle).2.2
       let ac' := ac + 1
       match analyzed.get "events" .none_ with
       | .error e => (.error e, oracle', lc', ac')
       | .ok evVal =>
         if analyzed.truthy && evVal.truthy && !hasErrorKey analyzed then
           match totalEvents evVal with
           | .error e => (.error e, oracle', lc', ac')
           | .ok total =>
             if 0 < total then (.ok analyzed, oracle', lc', ac')
             else processAnalyzeLoop cfg S fuel analyzed oracle' lc' ac'
         else processAnalyzeLoop cfg S fuel analyzed oracle' lc' ac') := rfl

theorem processAnalyzeLoop_calls_le (cfg : LLMConfig) (S : Sections) :
    ∀ (fuel : Nat) (last : PyVal) (oracle : List CallOutcome) (lc ac : Nat),
      (processAnalyzeLoop cfg S fuel last oracle lc ac).2.2.1 ≤ lc + 3 * fuel
      ∧ (processAnalyzeLoop cfg S fuel last oracle lc ac).2.2.2 ≤ ac + fuel := by
  intro fuel
  induction fuel with
  | zero =>
    intro last oracle lc ac
    rw [processAnalyzeLoop_zero]
    refine ⟨?_, ?_⟩ <;> simp
  | succ fuel ih =>
    intro last oracle lc ac
    have hc := analyze_spaceweather_data_calls_le cfg (some S) oracle
    rw [processAnalyzeLoop_succ]
    simp only []
    split
    · refine ⟨?_, ?_⟩ <;> · simp only [Prod.snd, Prod.fst]; omega
    · split
      · split
        · refine ⟨?_, ?_⟩ <;> · simp only [Prod.snd, Prod.fst]; omega
        · split
          · refine ⟨?_, ?_⟩ <;> · simp only [Prod.snd, Prod.fst]; omega
          · have := ih (analyze_spaceweather_data cfg (some S) oracle).1
              (analyze_spaceweather_data cfg (some S) oracle).2.1
              (lc + (analyze_spaceweather_data cfg (some S) oracle).2.2) (ac + 1)
            omega
      · have := ih (analyze_spaceweather_data cfg (some S) oracle).1
          (analyze_spaceweather_data cfg (some S) oracle).2.1
          (lc + (analyze_spaceweather_data cfg (some S) oracle).2.2) (ac + 1)
        omega

attribute [local irreducible] processAnalyzeLoop check_supabase_for_data local_existing
  sectionsOf totalEvents hasErrorKey analyze_spaceweather_data noSectionsRecord
  placeholderScraped optFalsy in
/-- C4 (amended): the Date Orchestrator's outer loop invokes the analyzer at
most `max_retries + 1` times per date, but each invocation of
`analyze_spaceweather_data` runs its own inner retry loop of up to 3 model
completion calls, so a single `process_date` call issues up to
`3 * (max_retries + 1)` model completion calls — not `max_retries + 1`. -/
theorem process_date_retry_budget (env : PDEnv) (date_str : String)
    (force_refresh : Bool) (max_retries : Nat) :
    (process_date env date_str force_refresh max_retries).analyzeCalls ≤ max_retries + 1
    ∧ (process_date env date_str force_refresh max_retries).llmCalls
        ≤ 3 * (max_retries + 1) := by
  have hp := processAnalyzeLoop_calls_le env.cfg (sectionsOf env date_str)
    (max_retries + 1) noSectionsRecord env.llm 0 0
  unfold process_date
  simp only []
  split
  · rename_i out heq
    repeat' split at heq
    all_goals try exact Option.noConfusion heq
    all_goals try simp only [Option.some.injEq] at heq
    all_goals try subst heq
    all_goals refine ⟨?_, ?_⟩ <;> · try simp only []
                                    omega
  · split
    · rename_i e o lc ac heq2
      rw [heq2] at hp
      simp only [Prod.snd, Prod.fst] at hp
      refine ⟨?_, ?_⟩ <;> · simp only []; omega
    · rename_i a o lc ac heq2
      rw [heq2] at hp
      simp only [Prod.snd, Prod.fst] at hp
      refine ⟨?_, ?_⟩ <;> · simp only []; omega

/-- A syntactically valid model reply that reports zero events in all four
categories, so every analysis attempt parses but fails the
`total_events > 0` test. -/
def emptyEventsReply : String := "\x7b\"date\":\"2024-05-01\",\"events\":\x7b\"cme\":[],\"sunspot\":[],\"flares\":[],\"coronal_holes\":[]\x7d\x7d"

/-- An orchestrator environment with no cached data, Supabase unavailable,
scraped text present, an API key configured, and a completion script that
answers every request with `emptyEventsReply`. -/
def retryEnv : PDEnv := ⟨Option.none, [], Option.none, false, Option.none,
  some ⟨"2024-05-01", "http://u", "", "The sun is active with a CME.", []⟩,
  List.replicate 9 (CallOutcome.ok emptyEventsReply Option.none), ⟨Provider.openrouter, true⟩⟩

set_option maxRecDepth 100000 in
set_option maxHeartbeats 4000000 in
/-- C4 counterexample: with the default `max_retries = 2`, a date whose every
analysis attempt parses to an all-empty record drives `process_date` to issue
9 model completion calls — more than the claimed cap of `max_retries + 1 = 3`.
The analyzer's own inner loop retries, contradicting the claim that it makes
no retry decisions. -/
theorem process_date_nine_llm_calls :
    (process_date retryEnv "2024-05-01" false 2).llmCalls = 9 ∧ ¬ (9 ≤ 2 + 1) :=
  ⟨rfl, by decide⟩

/-- `check_supabase_for_data` returns either nothing (importing nothing) or a
truthy, error-free record with at least one event, which it has imported into
the local store. -/
theorem check_supabase_spec (env : PDEnv) :
    ((check_supabase_for_data env).result = Option.none
      ∧ (check_supabase_for_data env).imported = [])
    ∨ (∃ sd, (check_supabase_for_data env).result = some sd
        ∧ (check_supabase_for_data env).imported = [sd]
        ∧ sd.truthy = true ∧ hasErrorKey sd = false
        ∧ ∃ t, (do let ev ← sd.get "events" (.dict_ []); totalEvents ev) = Except.ok t
            ∧ 0 < t) := by
  unfold check_supabase_for_data
  repeat' split
  all_goals try (left; exact ⟨rfl, rfl⟩)
  rename_i data hrem htr x1 total heq1 x2 hasErr heq2 h3
  have h4 : 0 < total ∧ hasErr = false := by simpa using h3
  right
  refine ⟨data, rfl, rfl, ?_, ?_, total, heq1, h4.1⟩
  · simpa using htr
  · have hhe := h4.2
    subst hhe
    cases data <;> simp_all [PyVal.get, PyVal.contains, hasErrorKey, Except.bind]

attribute [local irreducible] processAnalyzeLoop check_supabase_for_data
  totalEvents hasErrorKey analyze_spaceweather_data noSectionsRecord
  placeholderScraped sectionsOf local_existing in
/-- C3: when the Primary/Snapshot tiers yield a composite-empty record (zero
total events or an error key) and `force_refresh` is false, `process_date`
invokes the Supabase check exactly once from the cached-data branch, prefers
and imports the remote record exactly when that record is itself
non-composite-empty, and keeps the local record otherwise. -/
theorem process_date_composite_empty_remote (env : PDEnv) (d : String) (mr : Nat)
    (rec : PyVal) (n : Nat)
    (hloc : local_existing env d = some rec)
    (htruthy : rec.truthy = true)
    (htot : (do let ev ← rec.get "events" (.dict_ []); totalEvents ev) = Except.ok n)
    (hempty : n = 0 ∨ hasErrorKey rec = true) :
    (process_date env d false mr).remoteChecks = 1
    ∧ (process_date env d false mr).importedFromRemote
        = (check_supabase_for_data env).imported
    ∧ (process_date env d false mr).result =
        Except.ok ((check_supabase_for_data env).result.getD rec)
    ∧ (∀ sd, (check_supabase_for_data env).result = some sd →
        sd.truthy = true ∧ hasErrorKey sd = false
        ∧ (∃ t, (do let ev ← sd.get "events" (.dict_ []); totalEvents ev) = Except.ok t
            ∧ 0 < t)
        ∧ (check_supabase_for_data env).imported = [sd])
    ∧ ((check_supabase_for_data env).result = Option.none →
        (check_supabase_for_data env).imported = []) := by
  have hcond : (decide (0 < n) && !hasErrorKey rec) = false := by
    rcases hempty with h0 | he
    · subst h0; simp
    · rw [he]; simp
  have hcs := check_supabase_spec env
  unfold process_date
  rcases hcs with ⟨hres, himp⟩ | ⟨sd, hres, himp, htr, herr, t, htt, hpos⟩
  · simp only [hloc, optFalsy, htruthy, htot, hcond, hres, himp, Bool.not_true,
      Bool.not_false, Bool.false_and, Bool.and_true, Bool.true_and, Bool.false_eq_true,
      if_false, eq_self_iff_true, if_true, Option.getD_none, List.nil_append, Nat.zero_add]
    refine ⟨by simp, by simp, by simp, ?_, ?_⟩
    · intro sd h
      exact Option.noConfusion h
    · intro h
      trivial
  · have hcond2 : (decide (0 < t) && !hasErrorKey sd) = true := by
      rw [herr]; simp; omega
    simp only [hloc, optFalsy, htruthy, htot, hcond, hres, himp, htt, hcond2, Bool.not_true,
      Bool.not_false, Bool.false_and, Bool.and_true, Bool.true_and, Bool.false_eq_true,
      if_false, eq_self_iff_true, if_true, Option.getD_some, List.nil_append, Nat.zero_add]
    refine ⟨by simp, by simp, by simp, ?_, ?_⟩
    · intro sd' h
      simp only [Option.some.injEq] at h
      subst h
      exact ⟨htr, herr, ⟨t, htt, hpos⟩, rfl⟩
    · intro h
      exact Option.noConfusion h

/-- A locally cached record whose four event lists are all empty: truthy, no
error key, zero total events — composite-empty. -/
def localEmptyRec : PyVal :=
  .dict_ [("date", .str_ "2024-05-01"), ("url", .str_ "u"), ("events", emptyEvents)]

/-- A remote record carrying one CME event: non-composite-empty. -/
def remoteRec : PyVal :=
  .dict_ [("date", .str_ "2024-05-01"), ("url", .str_ "r"),
    ("events", .dict_ [("cme", .list_ [.dict_ [("tone", .str_ "Normal")]]),
      ("sunspot", .list_ []), ("flares", .list_ []), ("coronal_holes", .list_ [])])]

/-- Environment for the C3 witness: the snapshot holds `localEmptyRec`,
Supabase is reachable and holds `remoteRec`. -/
def remoteEnv : PDEnv := ⟨Option.none, [], some localEmptyRec, true, some remoteRec,
  Option.none, [], ⟨Provider.openrouter, false⟩⟩

/-- C3 witness: on `remoteEnv` the composite-empty local record triggers the
remote check and the remote record is returned. -/
theorem process_date_composite_empty_remote_witness :
    (process_date remoteEnv "2024-05-01" false 2).remoteChecks = 1
    ∧ (process_date remoteEnv "2024-05-01" false 2).result =
        Except.ok ((check_supabase_for_data remoteEnv).result.getD localEmptyRec)
    ∧ (check_supabase_for_data remoteEnv).result = some remoteRec :=
  ⟨(process_date_composite_empty_remote remoteEnv "2024-05-01" 2 localEmptyRec 0
      rfl rfl rfl (Or.inl rfl)).1,
   (process_date_composite_empty_remote remoteEnv "2024-05-01" 2 localEmptyRec 0
      rfl rfl rfl (Or.inl rfl)).2.2.1,
   rfl⟩

/-- C8 (amended): `process_date_range` returns exactly one result per
enumerated date; the enumerated dates are strictly increasing and never in
the future.  With a future end date the enumeration covers the full clamped
window `[max start (today - days), today]` inclusively.  But when the end
date is not in the future and the start is clamped to the lookback bound,
the enumeration stops at `end - 1`: the window's final date is omitted
(the clamped start keeps the current time of day while the end stays at
midnight, so the last `temp <= end` comparison fails), contradicting the
claimed "one DateRecord per date of the clamped window". -/
theorem process_date_range_window (envs : Int → PDEnv) (dateStr : Int → String)
    (start_date end_date : Option Int) (days : Nat) (force_refresh : Bool)
    (now startDay e today sec : Int) :
    (process_date_range envs dateStr start_date end_date days force_refresh now
      = (process_date_range_dates start_date end_date days now).map
          (fun d => (process_date (envs d) (dateStr d) force_refresh 2).result))
    ∧ (process_date_range_dates start_date end_date days now).Pairwise (· < ·)
    ∧ (∀ x ∈ process_date_range_dates start_date end_date days now, x ≤ now / 86400)
    ∧ (0 ≤ sec → sec < 86400 → e * 86400 > today * 86400 + sec → startDay ≤ today →
        process_date_range_dates (some startDay) (some e) days (today * 86400 + sec)
          = dayWindow (max startDay (today - days)) today)
    ∧ (0 < sec → sec < 86400 → e ≤ today →
        startDay * 86400 < today * 86400 + sec - (days : Int) * 86400 →
        today - days < e →
        process_date_range_dates (some startDay) (some e) days (today * 86400 + sec)
          = dayWindow (today - days) (e - 1)) := by
  refine ⟨rfl, ?_, ?_, ?_, ?_⟩
  · simp only [process_date_range_dates]
    exact genDates_sorted _ _ _ _
  · intro x hx
    simp only [process_date_range_dates] at hx
    exact genDates_le_today _ _ _ _ x hx
  · intro h0 h1 hfut hstart
    exact process_date_range_dates_future_end startDay e today sec days h0 h1 hfut hstart
  · intro h0 h1 hnf hclamp hwin
    exact process_date_range_dates_end_omitted startDay e today sec days h0 h1 hnf hclamp hwin

/-- C8 witness: at 01:00 on day 100 with a 30-day lookback, a future end
(day 200) yields the full window `[70, 100]`, while end = day 100 yields
`[70, 99]`. -/
theorem process_date_range_window_witness :
    process_date_range_dates (some 60) (some 200) 30 (100 * 86400 + 3600)
      = dayWindow (max 60 (100 - 30)) 100
    ∧ process_date_range_dates (some 60) (some 100) 30 (100 * 86400 + 3600)
      = dayWindow (100 - 30) (100 - 1) :=
  ⟨(process_date_range_window (fun _ => remoteEnv) (fun _ => "d") (some 60) (some 200) 30 false
      (100 * 86400 + 3600) 60 200 100 3600).2.2.2.1
      (by decide) (by decide) (by decide) (by decide),
   (process_date_range_window (fun _ => remoteEnv) (fun _ => "d") (some 60) (some 100) 30 false
      (100 * 86400 + 3600) 60 100 100 3600).2.2.2.2
      (by decide) (by decide) (by decide) (by decide) (by decide)⟩

/-- C8 counterexample: with `now` at 01:00 on day 100, `start = 60`,
`end = 100`, `days = 30`, the clamped window is `[70, 100]`, but the
enumeration returns `[70, ..., 99]` — day 100 is never processed. -/
theorem process_date_range_last_day_dropped :
    ((100 : Int) ∈ dayWindow 70 100)
    ∧ process_date_range_dates (some 60) (some 100) 30 (100 * 86400 + 3600)
        = dayWindow 70 99
    ∧ (100 : Int) ∉ process_date_range_dates (some 60) (some 100) 30 (100 * 86400 + 3600) := by
  refine ⟨?_, ?_, ?_⟩ <;> decide

/-- `takeUntilClose` stops at the first closing brace. -/
theorem takeUntilClose_append (post : List Char) :
    ∀ (mid : List Char), '\x7d' ∉ mid →
      takeUntilClose (mid ++ '\x7d' :: post) = some (mid ++ ['\x7d']) := by
  intro mid
  induction mid with
  | nil => intro _; simp [takeUntilClose]
  | cons c cs ih =>
    intro hmid
    simp only [List.mem_cons, not_or] at hmid
    simp only [List.cons_append, takeUntilClose]
    rw [if_neg (by simp; exact fun h => hmid.1 h.symm)]
    simp only [List.append_eq]
    rw [ih hmid.2]
    rfl

/-- C6 (amended): the `(\x7b.*?\x7d)` search of `parse_llm_response` is
lazy, not greedy: the selected span runs from the first opening brace to the
NEAREST following closing brace (crossing newlines), not to the last one. -/
theorem find_json_object_lazy (pre mid post : List Char)
    (hpre : '\x7b' ∉ pre) (hmid : '\x7d' ∉ mid) :
    find_json_object (String.mk (pre ++ '\x7b' :: (mid ++ '\x7d' :: post)))
      = some (String.mk ('\x7b' :: (mid ++ ['\x7d']))) := by
  show (find_json_object_aux (pre ++ '\x7b' :: (mid ++ '\x7d' :: post))).map String.mk
    = some (String.mk ('\x7b' :: (mid ++ ['\x7d'])))
  induction pre with
  | nil =>
    simp only [List.nil_append, find_json_object_aux]
    rw [if_pos (by simp)]
    rw [takeUntilClose_append post mid hmid]
    rfl
  | cons c cs ih =>
    simp only [List.mem_cons, not_or] at hpre
    simp only [List.cons_append, find_json_object_aux]
    rw [if_neg (by simp; exact fun h => hpre.1 h.symm)]
    exact ih hpre.2

/-- C6 counterexample: on `"a \x7b1\x7d b \x7b2\x7d"` the pipeline
extracts `"\x7b1\x7d"`, not the greedy span to the last closing brace. -/
theorem find_json_object_nearest_close :
    find_json_object "a \x7b1\x7d b \x7b2\x7d" = some "\x7b1\x7d"
    ∧ find_json_object "a \x7b1\x7d b \x7b2\x7d" ≠ some "\x7b1\x7d b \x7b2\x7d" := by
  refine ⟨rfl, by decide⟩

/-- C6 witness: the lazy-span theorem applied to `"a \x7b1\x7d b \x7b2\x7d"`. -/
theorem find_json_object_lazy_witness :
    find_json_object (String.mk (['a', ' ']
        ++ '\x7b' :: (['1'] ++ '\x7d' :: [' ', 'b', ' ', '\x7b', '2', '\x7d'])))
      = some (String.mk ('\x7b' :: (['1'] ++ ['\x7d']))) :=
  find_json_object_lazy ['a', ' '] ['1'] [' ', 'b', ' ', '\x7b', '2', '\x7d']
    (by decide) (by decide)

theorem startsWithL_mem : ∀ (pat s : List Char), startsWithL pat s = true →
    ∀ c ∈ pat, c ∈ s := by
  intro pat
  induction pat with
  | nil => intro s _ c hc; cases hc
  | cons p ps ih =>
    intro s hs c hc
    cases s with
    | nil => cases hs
    | cons x xs =>
      simp only [startsWithL, Bool.and_eq_true, beq_iff_eq] at hs
      rcases List.mem_cons.mp hc with h | h
      · subst h; rw [hs.1]; exact List.mem_cons_self _ _
      · exact List.mem_cons_of_mem _ (ih xs hs.2 c h)

theorem containsSub_eq_false (pat : List Char) (c : Char) (hc : c ∈ pat) :
    ∀ (s : List Char), c ∉ s → containsSub pat s = false := by
  intro s
  induction s with
  | nil =>
    intro _
    cases pat with
    | nil => cases hc
    | cons p ps => rfl
  | cons x xs ih =>
    intro hs
    simp only [List.mem_cons, not_or] at hs
    simp only [containsSub, Bool.or_eq_false_iff]
    constructor
    · cases h : startsWithL pat (x :: xs)
      · rfl
      · exact absurd (startsWithL_mem pat (x :: xs) h c hc)
          (by simp only [List.mem_cons, not_or]; exact hs)
    · exact ih hs.2

theorem find_json_object_aux_none : ∀ (s : List Char), '\x7b' ∉ s →
    find_json_object_aux s = Option.none := by
  intro s
  induction s with
  | nil => intro _; rfl
  | cons c cs ih =>
    intro hs
    simp only [List.mem_cons, not_or] at hs
    simp only [find_json_object_aux]
    rw [if_neg (by simp; exact fun h => hs.1 h.symm)]
    exact ih hs.2

theorem find_json_events_object_aux_none : ∀ (s : List Char), '\x7b' ∉ s →
    find_json_events_object_aux s = Option.none := by
  intro s
  induction s with
  | nil => intro _; rfl
  | cons c cs ih =>
    intro hs
    simp only [List.mem_cons, not_or] at hs
    simp only [find_json_events_object_aux]
    rw [if_neg (by simp; exact fun h => hs.1 h.symm)]
    exact ih hs.2

theorem subCommaClose_id (close : Char) : ∀ (fuel : Nat) (s : List Char), ',' ∉ s →
    subCommaClose close fuel s = s := by
  intro fuel
  induction fuel with
  | zero =>
    intro s _
    cases s with
    | nil => rfl
    | cons c cs => rfl
  | succ fuel ih =>
    intro s hs
    cases s with
    | nil => rfl
    | cons c cs =>
      simp only [List.mem_cons, not_or] at hs
      simp only [subCommaClose]
      rw [if_neg (by simp; exact fun h => hs.1 h.symm)]
      rw [ih cs hs.2]

theorem quoteKeys_id : ∀ (fuel : Nat) (s : List Char), '\x7b' ∉ s → ',' ∉ s →
    quoteKeys fuel s = s := by
  intro fuel
  induction fuel with
  | zero =>
    intro s _ _
    cases s with
    | nil => rfl
    | cons c cs => rfl
  | succ fuel ih =>
    intro s hb hc
    cases s with
    | nil => rfl
    | cons c cs =>
      simp only [List.mem_cons, not_or] at hb hc
      simp only [quoteKeys]
      rw [if_neg (by
        simp only [Bool.or_eq_true, beq_iff_eq, not_or]
        exact ⟨fun h => hb.1 h.symm, fun h => hc.1 h.symm⟩)]
      rw [ih cs hb.2 hc.2]

theorem subBoolAfterColon_id (lit target : List Char) :
    ∀ (fuel : Nat) (s : List Char), ':' ∉ s →
      subBoolAfterColon lit target fuel s = s := by
  intro fuel
  induction fuel with
  | zero =>
    intro s _
    cases s with
    | nil => rfl
    | cons c cs => rfl
  | succ fuel ih =>
    intro s hs
    cases s with
    | nil => rfl
    | cons c cs =>
      simp only [List.mem_cons, not_or] at hs
      simp only [subBoolAfterColon]
      rw [if_neg (by simp; exact fun h => hs.1 h.symm)]
      rw [ih cs hs.2]

theorem mkToList : ∀ (s : String), String.mk s.toList = s
  | ⟨_⟩ => rfl

theorem lastQuoteSuffix_none (s : List Char) (hs : '"' ∉ s) :
    lastQuoteSuffix s = Option.none := by
  simp only [lastQuoteSuffix]
  rw [List.takeWhile_eq_self_iff.mpr (by
    intro c hc
    simp only [ne_eq, decide_eq_true_eq]
    intro h
    subst h
    exact hs (List.mem_reverse.mp hc))]
  rw [if_pos (by simp)]

theorem findDateField_none : ∀ (s : List Char), '"' ∉ s →
    findDateField s = Option.none := by
  intro s
  induction s with
  | nil => intro _; rfl
  | cons c cs ih =>
    intro hs
    simp only [List.mem_cons, not_or] at hs
    simp only [findDateField]
    rw [if_neg (by
      show ¬(startsWithL _ _ = true)
      intro h
      exact absurd (startsWithL_mem _ _ h '"' (by decide))
        (by simp only [List.mem_cons, not_or]; exact hs))]
    exact ih hs.2

theorem findCategoryArray_none (cat : String) : ∀ (s : List Char), '"' ∉ s →
    findCategoryArray cat.toList s = Option.none := by
  intro s
  induction s with
  | nil => intro _; rfl
  | cons c cs ih =>
    intro hs
    simp only [List.mem_cons, not_or] at hs
    simp only [findCategoryArray]
    rw [if_neg (by
      show ¬(startsWithL _ _ = true)
      intro h
      exact absurd (startsWithL_mem _ _ h '"' (List.mem_cons_self _ _))
        (by simp only [List.mem_cons, not_or]; exact hs))]
    exact ih hs.2

theorem countChar_zero (c : Char) (s : List Char) (hs : c ∉ s) :
    countChar c s = 0 := by
  simp only [countChar, List.countP_eq_zero]
  intro x hx
  simp only [beq_iff_eq]
  intro h
  exact hs (h ▸ hx)


/-- A character that triggers none of the sanitizer's or scanners' patterns:
printable ASCII that is not a brace, double quote, backtick, comma, colon or
apostrophe. -/
def plainChar (c : Char) : Bool :=
  decide (0x20 ≤ c.toNat) && decide (c.toNat < 0x7F)
    && !(c == '\x7b' || c == '\x7d' || c == '"' || c == '`' || c == ','
         || c == ':' || c == Char.ofNat 39)

theorem stripL_mem (s : List Char) : ∀ c ∈ stripL s, c ∈ s := by
  intro c hc
  simp only [stripL] at hc
  have h1 := List.mem_reverse.mp hc
  have h2 := (List.dropWhile_sublist _).subset h1
  have h3 := List.mem_reverse.mp h2
  exact (List.dropWhile_sublist _).subset h3

theorem sanitize_json_response_plain (r : String)
    (hplain : ∀ c ∈ r.toList, plainChar c = true) :
    sanitize_json_response r = r := by
  have hb : '\x7b' ∉ r.toList := fun h => by
    have := hplain _ h; simp [plainChar] at this
  have hcm : ',' ∉ r.toList := fun h => by
    have := hplain _ h; simp [plainChar] at this
  have hcl : ':' ∉ r.toList := fun h => by
    have := hplain _ h; simp [plainChar] at this
  have hap : Char.ofNat 39 ∉ r.toList := fun h => by
    have := hplain _ h; simp [plainChar] at this
  unfold sanitize_json_response
  by_cases hr : r = ""
  · rw [if_pos hr]
  · rw [if_neg hr]
    simp only []
    have hfilter : r.toList.filter (fun c => !(c.toNat ≤ 0x1F || c.toNat == 0x7F))
        = r.toList := by
      rw [List.filter_eq_self]
      intro c hc
      have := hplain _ hc
      simp only [plainChar, Bool.and_eq_true, decide_eq_true_eq] at this
      simp only [Bool.not_eq_true', Bool.or_eq_false_iff, decide_eq_false_iff_not, not_le,
        beq_eq_false_iff_ne, ne_eq]
      omega
    rw [hfilter]
    rw [subCommaClose_id '\x7d' _ _ hcm]
    rw [subCommaClose_id ']' _ _ hcm]
    rw [quoteKeys_id _ _ hb hcm]
    rw [subBoolAfterColon_id _ _ _ _ hcl]
    rw [subBoolAfterColon_id _ _ _ _ hcl]
    have h39 : r.toList.contains (Char.ofNat 39) = false := by
      cases h : r.toList.contains (Char.ofNat 39)
      · rfl
      · exact absurd (by simpa using h) hap
    rw [h39]
    simp only [Bool.false_and, Bool.false_eq_true, if_false]
    exact mkToList r

theorem salvageData_plain (s : List Char) (S : Sections) (hq : '"' ∉ s) :
    salvageData s S = .dict_ [("date", .str_ S.date), ("events", emptyEvents)] := by
  unfold salvageData
  simp only []
  rw [findDateField_none s hq]
  rw [findCategoryArray_none "cme" s hq, findCategoryArray_none "sunspot" s hq,
    findCategoryArray_none "flares" s hq, findCategoryArray_none "coronal_holes" s hq]
  rfl


/-- A reply that is valid JSON except for one missing final closing brace. -/
def braceReply : String := "\x7b\"date\":\"2024-01-01\",\"events\":\x7b\"cme\":[],\"sunspot\":[],\"flares\":[],\"coronal_holes\":[]\x7d"

/-- The value of `braceReply` with its missing brace restored. -/
def braceVal : PyVal := .dict_ [("date", .str_ "2024-01-01"),
  ("events", .dict_ [("cme", .list_ []), ("sunspot", .list_ []),
    ("flares", .list_ []), ("coronal_holes", .list_ [])])]

set_option maxRecDepth 100000 in
set_option maxHeartbeats 1600000 in
/-- C5 (amended): a reply with no JSON-like content at all (plain printable
text that is not itself a JSON value) never raises: the salvage stage returns
a DateRecord with the bundle's date and source reference and all four event
lists empty — but with NO error field, contrary to the claim.  And a reply
that is valid JSON except one missing closing brace is recovered
extensionally: the final record equals what finalizing the completed JSON
would produce (for `braceReply` the reparse itself fails — the
unterminated-string heuristic appends a stray quote after the brace append —
and the salvage stage reconstructs the same record). -/
theorem parse_llm_response_salvage (r : String) (S : Sections)
    (hplain : ∀ c ∈ r.toList, plainChar c = true)
    (hnonempty : (stripL r.toList).isEmpty = false)
    (hfail : json_loads r = Option.none) :
    (parse_llm_response (some r) S
      = .dict_ [("date", .str_ S.date), ("events", emptyEvents), ("url", .str_ S.url)]
      ∧ hasErrorKey (parse_llm_response (some r) S) = false)
    ∧ json_loads (braceReply ++ "\x7d") = some braceVal
    ∧ (∀ T : Sections, parse_llm_response (some braceReply) T
        = finalizeParsedData braceVal T) := by
  have hb : '\x7b' ∉ r.toList := fun h => by
    have := hplain _ h; simp [plainChar] at this
  have h7d : '\x7d' ∉ r.toList := fun h => by
    have := hplain _ h; simp [plainChar] at this
  have hq : '"' ∉ r.toList := fun h => by
    have := hplain _ h; simp [plainChar] at this
  have hbt : '`' ∉ r.toList := fun h => by
    have := hplain _ h; simp [plainChar] at this
  have hf1 : containsSub "```json".toList r.toList = false :=
    containsSub_eq_false _ '`' (by decide) _ hbt
  have hf2 : containsSub "```".toList r.toList = false :=
    containsSub_eq_false _ '`' (by decide) _ hbt
  have hfjo : find_json_object r = Option.none := by
    unfold find_json_object
    rw [find_json_object_aux_none r.toList hb]
    rfl
  have hfje : find_json_events_object r = Option.none := by
    unfold find_json_events_object
    rw [find_json_events_object_aux_none r.toList hb]
    rfl
  have hsw : startsWithL ['\x7b'] (stripL r.toList) = false := by
    cases hsl : stripL r.toList with
    | nil => rfl
    | cons c cs =>
      have hcm : c ∈ r.toList := stripL_mem r.toList c (hsl ▸ List.mem_cons_self c cs)
      simp only [startsWithL, Bool.and_eq_true, beq_iff_eq, Bool.and_eq_false_iff]
      left
      simp only [beq_eq_false_iff_ne, ne_eq]
      intro h
      exact hb (h ▸ hcm)
  have hsanr : sanitize_json_response r = r := sanitize_json_response_plain r hplain
  have hfail2 : json_loads (String.mk r.toList) = Option.none := by
    rw [mkToList]; exact hfail
  have hc1 : countChar '\x7d' r.toList = 0 := countChar_zero _ _ h7d
  have hc2 : countChar '\x7b' r.toList = 0 := countChar_zero _ _ hb
  have hlq := lastQuoteSuffix_none r.toList hq
  have hsal := salvageData_plain r.toList S hq
  refine ⟨?_, rfl, fun T => rfl⟩
  have hmain : parse_llm_response (some r) S
      = .dict_ [("date", .str_ S.date), ("events", emptyEvents), ("url", .str_ S.url)] := by
    unfold parse_llm_response
    simp only [hnonempty, Bool.false_eq_true, if_false, hf1, hf2, hsw, Bool.not_false,
      if_true, hfjo, hfje, mkToList, hsanr, hfail, hc1, hc2, Nat.lt_irrefl, hlq, hsal]
    rfl
  exact ⟨hmain, by rw [hmain]; rfl⟩


/-- A concrete Section Bundle for the parse-pipeline witnesses. -/
def plainSections : Sections := ⟨[], [], [], [], "t", "2024-05-01", "u", []⟩

/-- A reply missing one closing brace whose event detail contains a closing
brace inside a string, so the brace counts balance and the truncation repair
never fires. -/
def strayBraceReply : String := "\x7b\"date\":\"2024-01-01\",\"events\":\x7b\"cme\":[\x7b\"tone\":\"Normal\",\"detail\":\"brace \x7d here\"\x7d],\"sunspot\":[]\x7d"

/-- The value of `strayBraceReply` with its missing brace restored: one CME
event. -/
def strayBraceVal : PyVal := .dict_ [("date", .str_ "2024-01-01"),
  ("events", .dict_ [("cme", .list_ [.dict_ [("tone", .str_ "Normal"),
    ("detail", .str_ "brace \x7d here")]]), ("sunspot", .list_ [])])]

set_option maxRecDepth 100000 in
set_option maxHeartbeats 1600000 in
/-- C5 counterexample: `strayBraceReply` is valid JSON except one missing
closing brace, yet the repair pipeline does not recover its parse — the
in-string brace balances the counts, the quote fix corrupts the text, and the
salvage stage drops the CME event, returning an all-empty events mapping.
And a reply with no JSON-like content yields a record WITHOUT the error
field, not with it. -/
theorem parse_llm_response_repair_gaps :
    json_loads (strayBraceReply ++ "\x7d") = some strayBraceVal
    ∧ parse_llm_response (some strayBraceReply) plainSections
        = .dict_ [("date", .str_ "2024-01-01"), ("events", emptyEvents),
            ("url", .str_ "u")]
    ∧ parse_llm_response (some "hello world") plainSections
        = .dict_ [("date", .str_ "2024-05-01"), ("events", emptyEvents),
            ("url", .str_ "u")]
    ∧ hasErrorKey (parse_llm_response (some "hello world") plainSections) = false :=
  ⟨rfl, rfl, rfl, rfl⟩

/-- C5 witness: the salvage theorem applied to the reply `"hello world"`. -/
theorem parse_llm_response_salvage_witness :
    parse_llm_response (some "hello world") plainSections
      = .dict_ [("date", .str_ plainSections.date), ("events", emptyEvents),
          ("url", .str_ plainSections.url)]
    ∧ hasErrorKey (parse_llm_response (some "hello world") plainSections) = false :=
  ⟨(parse_llm_response_salvage "hello world" plainSections (by decide) (by decide) rfl).1.1,
   (parse_llm_response_salvage "hello world" plainSections (by decide) (by decide) rfl).1.2⟩

/-- `setKey` on an existing key leaves the key list unchanged. -/
theorem setKey_keys (k : String) (v : PyVal) : ∀ em : List (String × PyVal),
    (PyVal.lookup k em).isSome = true →
    (PyVal.setKey k v em).map Prod.fst = em.map Prod.fst := by
  intro em
  induction em with
  | nil => intro h; simp [PyVal.lookup] at h
  | cons hd tl ih =>
    obtain ⟨k', v'⟩ := hd
    intro h
    by_cases hk : k' = k
    · simp [PyVal.setKey, hk]
    · simp only [PyVal.setKey, if_neg hk, List.map_cons]
      rw [ih (by simpa [PyVal.lookup, if_neg hk] using h)]

/-- `groupDbEvents` preserves the key list and the list-shape of every
value (a stray category raises before any key could be added). -/
theorem groupDbEvents_shape : ∀ (rows : List DbEventRow)
    (em em' : List (String × PyVal)),
    groupDbEvents rows em = .ok em' →
    (∀ p ∈ em, ∃ l, p.2 = PyVal.list_ l) →
    em'.map Prod.fst = em.map Prod.fst ∧ ∀ p ∈ em', ∃ l, p.2 = PyVal.list_ l := by
  intro rows
  induction rows with
  | nil =>
    intro em em' h hl
    simp only [groupDbEvents] at h
    cases h
    exact ⟨rfl, hl⟩
  | cons r rest ih =>
    intro em em' h hl
    simp only [groupDbEvents] at h
    split at h
    · rename_i l heq
      have hsome : (PyVal.lookup r.category em).isSome = true := by rw [heq]; rfl
      have := ih _ em' h (by
        intro p hp
        rcases PyVal.mem_setKey _ _ _ _ hp with h1 | h1
        · exact ⟨_, by rw [h1]⟩
        · exact hl p h1)
      exact ⟨this.1.trans (setKey_keys _ _ _ hsome), this.2⟩
    · cases h
    · cases h

/-- Every record `load_data_from_db` returns carries an events dict with
exactly the four standard category keys, each bound to a list. -/
theorem load_data_from_db_events (date_str : String) (row : Option DbDateRow)
    (evRows : List DbEventRow) (rec : PyVal)
    (h : load_data_from_db date_str row evRows = some rec) :
    ∃ em, rec.get "events" (.dict_ []) = Except.ok (.dict_ em)
      ∧ em.map Prod.fst = categories
      ∧ ∀ p ∈ em, ∃ l, p.2 = PyVal.list_ l := by
  unfold load_data_from_db at h
  split at h
  · cases h
  · split at h
    · cases h
    · rename_i dr em0 heq
      have hs := groupDbEvents_shape evRows _ em0 heq (by
        intro p hp
        fin_cases hp <;> exact ⟨[], rfl⟩)
      cases h
      exact ⟨em0, rfl, hs.1, hs.2⟩


/-- The category-canonicalization loop, on a dict-valued events entry,
returns a dict events entry that keeps every existing key and contains every
processed category. -/
theorem ensureEventCategories_dict : ∀ (cats : List String)
    (d d' : List (String × PyVal)),
    ensureEventCategories cats d = .ok d' →
    ∀ em, PyVal.lookup "events" d = some (.dict_ em) →
      ∃ em', PyVal.lookup "events" d' = some (.dict_ em')
        ∧ (∀ k, (PyVal.lookup k em).isSome = true → (PyVal.lookup k em').isSome = true)
        ∧ (∀ cat ∈ cats, (PyVal.lookup cat em').isSome = true) := by
  intro cats
  induction cats with
  | nil =>
    intro d d' h em hem
    simp only [ensureEventCategories] at h
    cases h
    exact ⟨em, hem, fun k hk => hk, by simp⟩
  | cons cat rest ih =>
    intro d d' h em hem
    simp only [ensureEventCategories, hem, PyVal.contains] at h
    by_cases hc : (PyVal.lookup cat em).isSome = true
    · rw [hc] at h
      obtain ⟨em', hev', hpres, hrest⟩ := ih d d' h em hem
      exact ⟨em', hev', hpres, by
        intro c hcm
        rcases List.mem_cons.mp hcm with h1 | h1
        · exact h1 ▸ hpres cat hc
        · exact hrest c h1⟩
    · rw [Bool.not_eq_true] at hc
      rw [hc] at h
      have hem2 : PyVal.lookup "events"
          (PyVal.setKey "events" (.dict_ (PyVal.setKey cat (.list_ []) em)) d)
          = some (.dict_ (PyVal.setKey cat (.list_ []) em)) := by
        rw [PyVal.lookup_setKey]
        simp
      obtain ⟨em', hev', hpres, hrest⟩ := ih _ d' h _ hem2
      refine ⟨em', hev', ?_, ?_⟩
      · intro k hk
        apply hpres
        rw [PyVal.lookup_setKey]
        split
        · rfl
        · exact hk
      · intro c hcm
        rcases List.mem_cons.mp hcm with h1 | h1
        · subst h1
          apply hpres
          rw [PyVal.lookup_setKey]
          simp
        · exact hrest c h1

/-- On a non-dict events value the canonicalization loop either raises or
leaves the record untouched. -/
theorem ensureEventCategories_nondict : ∀ (cats : List String)
    (d d' : List (String × PyVal)),
    ensureEventCategories cats d = .ok d' →
    ∀ ev, PyVal.lookup "events" d = some ev → (∀ em, ev ≠ .dict_ em) → d' = d := by
  intro cats
  induction cats with
  | nil =>
    intro d d' h ev hev hnd
    simp only [ensureEventCategories] at h
    cases h
    rfl
  | cons cat rest ih =>
    intro d d' h ev hev hnd
    simp only [ensureEventCategories, hev] at h
    cases ev with
    | dict_ em => exact absurd rfl (hnd em)
    | str_ s =>
      simp only [PyVal.contains] at h
      split at h
      · cases h
      · exact ih d d' h _ hev hnd
      · cases h
    | list_ l =>
      simp only [PyVal.contains] at h
      split at h
      · cases h
      · exact ih d d' h _ hev hnd
      · cases h
    | none_ =>
      simp only [PyVal.contains] at h
      cases h
    | bool_ b =>
      simp only [PyVal.contains] at h
      cases h
    | int_ i =>
      simp only [PyVal.contains] at h
      cases h
    | float_ f =>
      simp only [PyVal.contains] at h
      cases h


/-- The error-shaped fallback record is a dict whose events entry holds all
four categories. -/
theorem fallbackRecord_spec (S : Sections) (err : String) :
    ∃ d, fallbackRecord S err = .dict_ d
      ∧ ∃ ev, PyVal.lookup "events" d = some ev
        ∧ ∀ em, ev = .dict_ em →
            ∀ cat ∈ categories, (PyVal.lookup cat em).isSome = true := by
  refine ⟨_, rfl, emptyEvents, rfl, ?_⟩
  intro em hem cat hcat
  cases hem
  fin_cases hcat <;> rfl

/-- `finalizeParsedData` always yields a dict with an events key; whenever
that events value is a dict it contains all four standard categories. -/
theorem finalizeParsedData_spec (data : PyVal) (S : Sections) :
    ∃ d, finalizeParsedData data S = .dict_ d
      ∧ ∃ ev, PyVal.lookup "events" d = some ev
        ∧ ∀ em, ev = .dict_ em →
            ∀ cat ∈ categories, (PyVal.lookup cat em).isSome = true := by
  cases data with
  | dict_ d0 =>
    unfold finalizeParsedData
    simp only []
    by_cases h3 : (PyVal.lookup "events"
        (if (PyVal.lookup "date" (PyVal.setKey "url" (.str_ S.url) d0)).isNone = true
         then PyVal.setKey "date" (.str_ S.date) (PyVal.setKey "url" (.str_ S.url) d0)
         else PyVal.setKey "url" (.str_ S.url) d0)).isNone = true
    · rw [if_pos h3]
      rcases heq : ensureEventCategories categories
          (PyVal.setKey "events" (.dict_ []) _) with e | d4
      · exact fallbackRecord_spec S e
      · obtain ⟨em', hev', hpres, hcats⟩ := ensureEventCategories_dict categories _ d4 heq
          [] (by rw [PyVal.lookup_setKey]; simp)
        exact ⟨d4, rfl, .dict_ em', hev', by
          intro em hem cat hcat
          cases hem
          exact hcats cat hcat⟩
    · rw [if_neg h3]
      rcases hval : PyVal.lookup "events"
          (if (PyVal.lookup "date" (PyVal.setKey "url" (.str_ S.url) d0)).isNone = true
           then PyVal.setKey "date" (.str_ S.date) (PyVal.setKey "url" (.str_ S.url) d0)
           else PyVal.setKey "url" (.str_ S.url) d0) with _ | ev0
      · rw [hval] at h3; simp at h3
      · rcases heq : ensureEventCategories categories
            (if (PyVal.lookup "date" (PyVal.setKey "url" (.str_ S.url) d0)).isNone = true
             then PyVal.setKey "date" (.str_ S.date) (PyVal.setKey "url" (.str_ S.url) d0)
             else PyVal.setKey "url" (.str_ S.url) d0) with e | d4
        · exact fallbackRecord_spec S e
        · cases hd : ev0 with
          | dict_ em0 =>
            obtain ⟨em', hev', hpres, hcats⟩ :=
              ensureEventCategories_dict categories _ d4 heq em0 (hd ▸ hval)
            exact ⟨d4, rfl, .dict_ em', hev', by
              intro em hem cat hcat
              cases hem
              exact hcats cat hcat⟩
          | none_ =>
            have hid := ensureEventCategories_nondict categories _ d4 heq _ hval
              (by intro em hne; rw [hd] at hne; cases hne)
            subst hid
            exact ⟨_, rfl, ev0, hval, by
              intro em hem cat hcat
              rw [hd] at hem
              cases hem⟩
          | bool_ b =>
            have hid := ensureEventCategories_nondict categories _ d4 heq _ hval
              (by intro em hne; rw [hd] at hne; cases hne)
            subst hid
            exact ⟨_, rfl, ev0, hval, by
              intro em hem cat hcat
              rw [hd] at hem
              cases hem⟩
          | int_ i =>
            have hid := ensureEventCategories_nondict categories _ d4 heq _ hval
              (by intro em hne; rw [hd] at hne; cases hne)
            subst hid
            exact ⟨_, rfl, ev0, hval, by
              intro em hem cat hcat
              rw [hd] at hem
              cases hem⟩
          | float_ f =>
            have hid := ensureEventCategories_nondict categories _ d4 heq _ hval
              (by intro em hne; rw [hd] at hne; cases hne)
            subst hid
            exact ⟨_, rfl, ev0, hval, by
              intro em hem cat hcat
              rw [hd] at hem
              cases hem⟩
          | str_ s =>
            have hid := ensureEventCategories_nondict categories _ d4 heq _ hval
              (by intro em hne; rw [hd] at hne; cases hne)
            subst hid
            exact ⟨_, rfl, ev0, hval, by
              intro em hem cat hcat
              rw [hd] at hem
              cases hem⟩
          | list_ l =>
            have hid := ensureEventCategories_nondict categories _ d4 heq _ hval
              (by intro em hne; rw [hd] at hne; cases hne)
            subst hid
            exact ⟨_, rfl, ev0, hval, by
              intro em hem cat hcat
              rw [hd] at hem
              cases hem⟩
  | none_ => exact fallbackRecord_spec S _
  | bool_ b => exact fallbackRecord_spec S _
  | int_ i => exact fallbackRecord_spec S _
  | float_ f => exact fallbackRecord_spec S _
  | str_ s => exact fallbackRecord_spec S _
  | list_ l => exact fallbackRecord_spec S _


attribute [local irreducible] json_loads sanitize_json_response find_json_object
  find_json_events_object containsSub splitOnSub stripL lastQuoteSuffix replaceSub
  countChar salvageData startsWithL finalizeParsedData fallbackRecord in
set_option maxHeartbeats 2000000 in
/-- Every parse result is a dict with an events key; dict-valued events
contain the four categories. -/
theorem parse_llm_response_events_shape (r : Option String) (S : Sections) :
    ∃ d, parse_llm_response r S = .dict_ d
      ∧ ∃ ev, PyVal.lookup "events" d = some ev
        ∧ ∀ em, ev = .dict_ em →
            ∀ cat ∈ categories, (PyVal.lookup cat em).isSome = true := by
  have key : ∀ js : List Char,
      ∃ d, (match json_loads (String.mk js) with
          | some data => finalizeParsedData data S
          | Option.none =>
            let json_str2 : List Char :=
              if countChar '\x7d' js < countChar '\x7b' js then
                js ++ List.replicate (countChar '\x7b' js - countChar '\x7d' js) '\x7d'
              else js
            let json_str3 : List Char :=
              match lastQuoteSuffix json_str2 with
              | some m => replaceSub m (m ++ ['"']) json_str2
              | Option.none => json_str2
            match json_loads (String.mk json_str3) with
            | some data => finalizeParsedData data S
            | Option.none => finalizeParsedData (salvageData json_str3 S) S) = .dict_ d
        ∧ ∃ ev, PyVal.lookup "events" d = some ev
          ∧ ∀ em, ev = .dict_ em →
              ∀ cat ∈ categories, (PyVal.lookup cat em).isSome = true := by
    intro js
    split
    · exact finalizeParsedData_spec _ S
    · simp only []
      split
      · exact finalizeParsedData_spec _ S
      · exact finalizeParsedData_spec _ S
  cases r with
  | none => exact fallbackRecord_spec S _
  | some resp =>
    unfold parse_llm_response
    split
    · exact fallbackRecord_spec S _
    · split
      · exact fallbackRecord_spec S _
      · exact key _

/-- C2 (amended): records loaded from the structured store have an events
mapping with exactly the four category keys, each a (possibly empty) list;
records built from a model reply are always dicts with an events key, and
whenever that events value is a dict it CONTAINS the four category keys —
but not exactly those keys, and not necessarily list-valued: extra keys and
null values from the reply survive canonicalization. -/
theorem dateRecord_events_shape :
    (∀ (date_str : String) (row : Option DbDateRow) (evRows : List DbEventRow)
        (rec : PyVal),
        load_data_from_db date_str row evRows = some rec →
        ∃ em, rec.get "events" (.dict_ []) = Except.ok (.dict_ em)
          ∧ em.map Prod.fst = categories
          ∧ ∀ p ∈ em, ∃ l, p.2 = PyVal.list_ l)
    ∧ ∀ (r : Option String) (S : Sections),
        ∃ d, parse_llm_response r S = .dict_ d
          ∧ ∃ ev, PyVal.lookup "events" d = some ev
            ∧ ∀ em, ev = .dict_ em →
                ∀ cat ∈ categories, (PyVal.lookup cat em).isSome = true :=
  ⟨load_data_from_db_events, parse_llm_response_events_shape⟩

/-- A reply whose events mapping holds a non-standard key and a null
category value. -/
def extraKeyReply : String := "\x7b\"date\":\"2024-01-01\",\"events\":\x7b\"aurora\":[],\"cme\":null\x7d\x7d"

set_option maxRecDepth 100000 in
/-- C2 counterexample: a reply whose events mapping holds the spurious key
`aurora` and maps `cme` to null parses into a record with five event keys and
a null category value — the four-keys-exactly/never-null invariant fails at
the parse interface. -/
theorem parse_llm_response_extra_and_null :
    parse_llm_response (some extraKeyReply) plainSections
      = .dict_ [("date", .str_ "2024-01-01"),
          ("events", .dict_ [("aurora", .list_ []), ("cme", .none_),
            ("sunspot", .list_ []), ("flares", .list_ []),
            ("coronal_holes", .list_ [])]),
          ("url", .str_ "u")]
    ∧ PyVal.lookup "cme" [("aurora", PyVal.list_ []), ("cme", PyVal.none_),
        ("sunspot", PyVal.list_ []), ("flares", PyVal.list_ []),
        ("coronal_holes", PyVal.list_ [])] = some PyVal.none_
    ∧ ¬ ([("aurora", PyVal.list_ []), ("cme", PyVal.none_),
        ("sunspot", PyVal.list_ []), ("flares", PyVal.list_ []),
        ("coronal_holes", PyVal.list_ [])].map Prod.fst = categories) :=
  ⟨rfl, rfl, by decide⟩

/-- C2 witness: the load-path clause applied to a one-row store. -/
theorem dateRecord_events_shape_witness :
    ∃ em, (PyVal.dict_ [("date", PyVal.str_ "2024-05-01"), ("url", PyVal.str_ "u"),
        ("events", PyVal.dict_ [("cme", PyVal.list_ []), ("sunspot", PyVal.list_ []),
          ("flares", PyVal.list_ []), ("coronal_holes", PyVal.list_ [])])]).get
          "events" (.dict_ [])
        = Except.ok (.dict_ em)
      ∧ em.map Prod.fst = categories
      ∧ ∀ p ∈ em, ∃ l, p.2 = PyVal.list_ l :=
  dateRecord_events_shape.1 "2024-05-01" (some ⟨.str_ "u", .none_⟩) [] _ rfl

/-- The canonicalization loop only writes the events key: every other key
keeps its value. -/
theorem ensureEventCategories_lookup_ne : ∀ (cats : List String)
    (d d' : List (String × PyVal)),
    ensureEventCategories cats d = .ok d' →
    ∀ k, k ≠ "events" → PyVal.lookup k d' = PyVal.lookup k d := by
  intro cats
  induction cats with
  | nil =>
    intro d d' h k hk
    simp only [ensureEventCategories] at h
    cases h
    rfl
  | cons cat rest ih =>
    intro d d' h k hk
    simp only [ensureEventCategories] at h
    split at h
    · cases h
    · split at h
      · cases h
      · exact ih d d' h k hk
      · split at h
        · rename_i em _
          rw [ih _ d' h k hk, PyVal.lookup_setKey]
          rw [if_neg hk]
        · cases h

/-- The fallback record carries the bundle's source reference and a date. -/
theorem fallbackRecord_url_date (S : Sections) (err : String) :
    ∃ d, fallbackRecord S err = .dict_ d
      ∧ PyVal.lookup "url" d = some (.str_ S.url)
      ∧ (PyVal.lookup "date" d).isSome = true := ⟨_, rfl, rfl, rfl⟩

/-- `finalizeParsedData` always sets the url from the bundle and always
leaves a date key present. -/
theorem finalizeParsedData_url_date (data : PyVal) (S : Sections) :
    ∃ d, finalizeParsedData data S = .dict_ d
      ∧ PyVal.lookup "url" d = some (.str_ S.url)
      ∧ (PyVal.lookup "date" d).isSome = true := by
  cases data with
  | dict_ d0 =>
    unfold finalizeParsedData
    simp only []
    have hurl1 : PyVal.lookup "url" (PyVal.setKey "url" (.str_ S.url) d0)
        = some (.str_ S.url) := by
      rw [PyVal.lookup_setKey]
      simp
    set d1 := PyVal.setKey "url" (.str_ S.url) d0 with hd1
    have hstep : ∀ d2 : List (String × PyVal),
        PyVal.lookup "url" d2 = some (.str_ S.url) →
        (PyVal.lookup "date" d2).isSome = true →
        ∃ d, (match ensureEventCategories categories
            (if (PyVal.lookup "events" d2).isNone = true
             then PyVal.setKey "events" (.dict_ []) d2 else d2) with
          | .ok d4 => PyVal.dict_ d4
          | .error e => fallbackRecord S e) = .dict_ d
          ∧ PyVal.lookup "url" d = some (.str_ S.url)
          ∧ (PyVal.lookup "date" d).isSome = true := by
      intro d2 hu hdt
      have hu3 : PyVal.lookup "url"
          (if (PyVal.lookup "events" d2).isNone = true
           then PyVal.setKey "events" (.dict_ []) d2 else d2) = some (.str_ S.url) := by
        split
        · rw [PyVal.lookup_setKey]; simp [hu]
        · exact hu
      have hd3 : (PyVal.lookup "date"
          (if (PyVal.lookup "events" d2).isNone = true
           then PyVal.setKey "events" (.dict_ []) d2 else d2)).isSome = true := by
        split
        · rw [PyVal.lookup_setKey]; simp; exact hdt
        · exact hdt
      rcases heq : ensureEventCategories categories
          (if (PyVal.lookup "events" d2).isNone = true
           then PyVal.setKey "events" (.dict_ []) d2 else d2) with e | d4
      · exact fallbackRecord_url_date S e
      · refine ⟨d4, rfl, ?_, ?_⟩
        · rw [ensureEventCategories_lookup_ne categories _ d4 heq "url" (by decide)]
          exact hu3
        · rw [ensureEventCategories_lookup_ne categories _ d4 heq "date" (by decide)]
          exact hd3
    by_cases h2 : (PyVal.lookup "date" d1).isNone = true
    · rw [if_pos h2]
      apply hstep
      · rw [PyVal.lookup_setKey]
        simp only [if_neg (by decide : ¬("url" = "date"))]
        exact hurl1
      · rw [PyVal.lookup_setKey]
        simp
    · rw [if_neg h2]
      apply hstep
      · exact hurl1
      · cases hv : PyVal.lookup "date" d1 with
        | none => rw [hv] at h2; simp at h2
        | some v => simp [hv]
  | none_ => exact fallbackRecord_url_date S _
  | bool_ b => exact fallbackRecord_url_date S _
  | int_ i => exact fallbackRecord_url_date S _
  | float_ f => exact fallbackRecord_url_date S _
  | str_ s => exact fallbackRecord_url_date S _
  | list_ l => exact fallbackRecord_url_date S _


/-- When the parsed data has no date key, the bundle's date is
back-filled. -/
theorem finalizeParsedData_date_backfill (d0 : List (String × PyVal)) (S : Sections)
    (h : PyVal.lookup "date" d0 = Option.none) :
    ∃ d, finalizeParsedData (.dict_ d0) S = .dict_ d
      ∧ PyVal.lookup "date" d = some (.str_ S.date) := by
  unfold finalizeParsedData
  simp only []
  have h1 : PyVal.lookup "date" (PyVal.setKey "url" (.str_ S.url) d0) = Option.none := by
    rw [PyVal.lookup_setKey, if_neg (by decide : ¬("date" = "url"))]
    exact h
  rw [h1]
  simp only [Option.isNone_none, if_true]
  have h2 : PyVal.lookup "date" (PyVal.setKey "date" (.str_ S.date)
      (PyVal.setKey "url" (.str_ S.url) d0)) = some (.str_ S.date) := by
    rw [PyVal.lookup_setKey]
    simp
  set d2 := PyVal.setKey "date" (.str_ S.date) (PyVal.setKey "url" (.str_ S.url) d0)
    with hd2
  have h3 : PyVal.lookup "date"
      (if (PyVal.lookup "events" d2).isNone = true
       then PyVal.setKey "events" (.dict_ []) d2 else d2) = some (.str_ S.date) := by
    split
    · rw [PyVal.lookup_setKey, if_neg (by decide : ¬("date" = "events"))]
      exact h2
    · exact h2
  rcases heq : ensureEventCategories categories
      (if (PyVal.lookup "events" d2).isNone = true
       then PyVal.setKey "events" (.dict_ []) d2 else d2) with e | d4
  · exact ⟨_, rfl, rfl⟩
  · refine ⟨d4, rfl, ?_⟩
    rw [ensureEventCategories_lookup_ne categories _ d4 heq "date" (by decide)]
    exact h3

/-- When the parsed data carries a date, that date is RETAINED: unless the
canonicalizer raises (yielding the error record), the result keeps the
reply's date value. -/
theorem finalizeParsedData_date_kept (d0 : List (String × PyVal)) (S : Sections)
    (v : PyVal) (h : PyVal.lookup "date" d0 = some v) :
    (∃ e, finalizeParsedData (.dict_ d0) S = fallbackRecord S e)
    ∨ (∃ d, finalizeParsedData (.dict_ d0) S = .dict_ d
        ∧ PyVal.lookup "date" d = some v) := by
  unfold finalizeParsedData
  simp only []
  have h1 : PyVal.lookup "date" (PyVal.setKey "url" (.str_ S.url) d0) = some v := by
    rw [PyVal.lookup_setKey, if_neg (by decide : ¬("date" = "url"))]
    exact h
  rw [h1]
  simp only [Option.isNone_some, Bool.false_eq_true, if_false]
  set d1 := PyVal.setKey "url" (.str_ S.url) d0 with hd1
  have h3 : PyVal.lookup "date"
      (if (PyVal.lookup "events" d1).isNone = true
       then PyVal.setKey "events" (.dict_ []) d1 else d1) = some v := by
    split
    · rw [PyVal.lookup_setKey, if_neg (by decide : ¬("date" = "events"))]
      exact h1
    · exact h1
  rcases heq : ensureEventCategories categories
      (if (PyVal.lookup "events" d1).isNone = true
       then PyVal.setKey "events" (.dict_ []) d1 else d1) with e | d4
  · exact Or.inl ⟨e, rfl⟩
  · refine Or.inr ⟨d4, rfl, ?_⟩
    rw [ensureEventCategories_lookup_ne categories _ d4 heq "date" (by decide)]
    exact h3

attribute [local irreducible] json_loads sanitize_json_response find_json_object
  find_json_events_object containsSub splitOnSub stripL lastQuoteSuffix replaceSub
  countChar salvageData startsWithL finalizeParsedData fallbackRecord in
set_option maxHeartbeats 2000000 in
/-- Every parse result is a dict carrying the bundle's url and some date. -/
theorem parse_llm_response_url_date (r : Option String) (S : Sections) :
    ∃ d, parse_llm_response r S = .dict_ d
      ∧ PyVal.lookup "url" d = some (.str_ S.url)
      ∧ (PyVal.lookup "date" d).isSome = true := by
  have key : ∀ js : List Char,
      ∃ d, (match json_loads (String.mk js) with
          | some data => finalizeParsedData data S
          | Option.none =>
            let json_str2 : List Char :=
              if countChar '\x7d' js < countChar '\x7b' js then
                js ++ List.replicate (countChar '\x7b' js - countChar '\x7d' js) '\x7d'
              else js
            let json_str3 : List Char :=
              match lastQuoteSuffix json_str2 with
              | some m => replaceSub m (m ++ ['"']) json_str2
              | Option.none => json_str2
            match json_loads (String.mk json_str3) with
            | some data => finalizeParsedData data S
            | Option.none => finalizeParsedData (salvageData json_str3 S) S) = .dict_ d
        ∧ PyVal.lookup "url" d = some (.str_ S.url)
        ∧ (PyVal.lookup "date" d).isSome = true := by
    intro js
    split
    · exact finalizeParsedData_url_date _ S
    · simp only []
      split
      · exact finalizeParsedData_url_date _ S
      · exact finalizeParsedData_url_date _ S
  cases r with
  | none => exact fallbackRecord_url_date S _
  | some resp =>
    unfold parse_llm_response
    split
    · exact fallbackRecord_url_date S _
    · split
      · exact fallbackRecord_url_date S _
      · exact key _


/-- C1 (amended): the Extraction Normalizer always takes the source
reference from the Section Bundle (the url is set unconditionally) and always
leaves a date present, but it takes the bundle's date only as a BACK-FILL for
a missing date field: a reply that carries its own date keeps it (unless the
canonicalizer raises), so a drifting reply does change the returned record's
date, and `process_date(d)` need not return a record dated `d`. -/
theorem parse_llm_response_date_provenance :
    (∀ (r : Option String) (S : Sections),
      ∃ d, parse_llm_response r S = .dict_ d
        ∧ PyVal.lookup "url" d = some (.str_ S.url)
        ∧ (PyVal.lookup "date" d).isSome = true)
    ∧ (∀ (d0 : List (String × PyVal)) (S : Sections),
        PyVal.lookup "date" d0 = Option.none →
        ∃ d, finalizeParsedData (.dict_ d0) S = .dict_ d
          ∧ PyVal.lookup "date" d = some (.str_ S.date))
    ∧ (∀ (d0 : List (String × PyVal)) (S : Sections) (v : PyVal),
        PyVal.lookup "date" d0 = some v →
        (∃ e, finalizeParsedData (.dict_ d0) S = fallbackRecord S e)
        ∨ (∃ d, finalizeParsedData (.dict_ d0) S = .dict_ d
            ∧ PyVal.lookup "date" d = some v)) :=
  ⟨parse_llm_response_url_date, finalizeParsedData_date_backfill,
   finalizeParsedData_date_kept⟩

/-- A well-formed reply carrying a date different from the processed
date. -/
def driftReply : String := "\x7b\"date\":\"1999-01-01\",\"events\":\x7b\"cme\":[\x7b\"tone\":\"Normal\"\x7d],\"sunspot\":[],\"flares\":[],\"coronal_holes\":[]\x7d\x7d"

/-- An environment with no cached data whose single scripted completion is
the date-drifting reply. -/
def driftEnv : PDEnv := ⟨Option.none, [], Option.none, false, Option.none,
  some ⟨"2024-05-01", "http://u", "", "The sun is active with a CME.", []⟩,
  [CallOutcome.ok driftReply Option.none], ⟨Provider.openrouter, true⟩⟩

set_option maxRecDepth 100000 in
set_option maxHeartbeats 1600000 in
/-- C1 counterexample: processing 2024-05-01 with a reply dated 1999-01-01
returns a record whose date field is 1999-01-01, not the processed date. -/
theorem process_date_date_drift :
    (process_date driftEnv "2024-05-01" false 2).result
      = Except.ok (.dict_ [("date", .str_ "1999-01-01"),
          ("events", .dict_ [("cme", .list_ [.dict_ [("tone", .str_ "Normal")]]),
            ("sunspot", .list_ []), ("flares", .list_ []),
            ("coronal_holes", .list_ [])]),
          ("url", .str_ "http://u")])
    ∧ ("1999-01-01" : String) ≠ "2024-05-01" :=
  ⟨rfl, by decide⟩

/-- C1 witness: the back-fill clause on a dateless record and the
date-kept clause on a reply-dated record. -/
theorem parse_llm_response_date_provenance_witness :
    (∃ d, finalizeParsedData (.dict_ [("events", PyVal.dict_ [])]) plainSections
        = .dict_ d ∧ PyVal.lookup "date" d = some (.str_ plainSections.date))
    ∧ ((∃ e, finalizeParsedData (.dict_ [("date", PyVal.str_ "1999-01-01")])
          plainSections = fallbackRecord plainSections e)
      ∨ (∃ d, finalizeParsedData (.dict_ [("date", PyVal.str_ "1999-01-01")])
          plainSections = .dict_ d
          ∧ PyVal.lookup "date" d = some (PyVal.str_ "1999-01-01"))) :=
  ⟨parse_llm_response_date_provenance.2.1 [("events", PyVal.dict_ [])]
      plainSections rfl,
   parse_llm_response_date_provenance.2.2 [("date", PyVal.str_ "1999-01-01")]
      plainSections (PyVal.str_ "1999-01-01") rfl⟩

end SW
